import Mathlib

/-!
Verification of the psd-run visibility resolver and interaction runtime.

The TypeScript sources are shallowly embedded: JavaScript `Map`s become
association lists mutated with JS `Map.set` semantics (update in place,
else append), `Set`s become insertion-ordered duplicate-free lists,
`string | undefined` becomes `Option String` with JS truthiness made
explicit (`""` and `undefined` are falsy), and the asynchronous render
pushes become an explicit list of emitted render effects.
-/

namespace PsdRun

/-- JS `Map.get(k)`: the value stored at `k`, if any. -/
def jmGet? {α β : Type} [DecidableEq α] (m : List (α × β)) (k : α) : Option β :=
  (m.find? (fun p => p.1 == k)).map (fun p => p.2)

/-- JS `Map.has(k)`. -/
def jmHas {α β : Type} [DecidableEq α] (m : List (α × β)) (k : α) : Bool :=
  (jmGet? m k).isSome

/-- JS `Map.set(k, v)`: update the existing entry in place, else append. -/
def jmSet {α β : Type} [DecidableEq α] (m : List (α × β)) (k : α) (v : β) : List (α × β) :=
  if m.any (fun p => p.1 == k) then
    m.map (fun p => if p.1 == k then (k, v) else p)
  else
    m ++ [(k, v)]

/-- JS `Map.delete(k)`. -/
def jmDelete {α β : Type} [DecidableEq α] (m : List (α × β)) (k : α) : List (α × β) :=
  m.filter (fun p => !(p.1 == k))

/-- JS `Set.add(x)`: insertion-ordered, no duplicates. -/
def setAdd {α : Type} [DecidableEq α] (s : List α) (x : α) : List α :=
  if s.contains x then s else s ++ [x]

/-- The keys of an association list. -/
def jmKeys {α β : Type} (m : List (α × β)) : List α :=
  m.map (fun p => p.1)

/-- JS truthiness of a `string | undefined` value: `undefined` and `""` are falsy. -/
def truthyS (o : Option String) : Bool :=
  match o with
  | some s => !(s == "")
  | none => false

/-- JS `a || b` for a looked-up string with a default: the default replaces
`undefined` and the falsy `""`. -/
def jsOr (o : Option String) (dflt : String) : String :=
  match o with
  | some s => if s == "" then dflt else s
  | none => dflt

/-- JS `s.charAt(i)`: a one-character string, or `""` out of range. -/
def charAt (s : String) (i : Nat) : String :=
  match s.data.get? i with
  | some c => String.singleton c
  | none => ""

/-! ## Layer data model (src/src/lib/qt-renderer.ts `LayerInfo`, fields the
visibility resolver reads: `id`, `type`, `visible`). -/

structure LayerInfo where
  id : Int
  type : String
  visible : Bool
deriving DecidableEq, Repr

/-! ## Visibility resolver (src/src/main.tsx, psd-store section) -/

/-- The backward depth-counting scan of `getAncestorGroupIds`, walking the
reversed prefix of the layer sequence before the layer's index. -/
def ancestorScan : List LayerInfo → Nat → List Int
  | [], _ => []
  | l :: rest, depth =>
    if l.type == "groupEnd" then ancestorScan rest (depth + 1)
    else if l.type == "group" then
      if depth == 0 then l.id :: ancestorScan rest 0
      else ancestorScan rest (depth - 1)
    else ancestorScan rest depth

/-- `getAncestorGroupIds(layers, layerIndex)`: ids of the enclosing groups,
found by walking backward from the layer with a depth counter. -/
def getAncestorGroupIds (layers : List LayerInfo) (layerIndex : Nat) : List Int :=
  ancestorScan ((layers.take layerIndex).reverse) 0

/-- Own visibility: `overrides.has(id) ? overrides.get(id) : authored`. -/
def ownVisValue (overrides : List (Int × Bool)) (id : Int) (authored : Bool) : Bool :=
  match jmGet? overrides id with
  | some b => b
  | none => authored

/-- The ancestor check inside `computeEffectiveVisibility`'s loop: re-find the
ancestor layer by id and evaluate its own/override visibility (a missing
ancestor is skipped, i.e. counts as visible). -/
def ancestorVisible (layers : List LayerInfo) (overrides : List (Int × Bool)) (aid : Int) : Bool :=
  match layers.find? (fun l => l.id == aid) with
  | none => true
  | some anc => ownVisValue overrides aid anc.visible

/-- `computeEffectiveVisibility(layers, layerId, overrides)`. -/
def computeEffectiveVisibility (layers : List LayerInfo) (layerId : Int)
    (overrides : List (Int × Bool)) : Bool :=
  match layers.find? (fun l => l.id == layerId) with
  | none => false
  | some layer =>
    let layerIndex := layers.findIdx (fun l => l.id == layerId)
    let ownVisible := ownVisValue overrides layerId layer.visible
    if ownVisible then
      (getAncestorGroupIds layers layerIndex).all (fun aid => ancestorVisible layers overrides aid)
    else false

/-- C1: `computeEffectiveVisibility(layers, layerId, overrides)` returns true
iff a layer with that id occurs in the sequence, its own visibility (override
value when the map has its id, else its authored flag) is true, and every
ancestor found by the backward depth-counting scan has true own/override
visibility; in particular it returns false when the id occurs nowhere and
false when any ancestor at any depth is invisible. -/
theorem computeEffectiveVisibility_correct (layers : List LayerInfo) (layerId : Int)
    (overrides : List (Int × Bool)) :
    (computeEffectiveVisibility layers layerId overrides = true ↔
      ∃ layer, layers.find? (fun l => l.id == layerId) = some layer ∧
        ownVisValue overrides layerId layer.visible = true ∧
        ∀ aid ∈ getAncestorGroupIds layers (layers.findIdx (fun l => l.id == layerId)),
          ancestorVisible layers overrides aid = true) ∧
    ((∀ l ∈ layers, ¬ l.id = layerId) → computeEffectiveVisibility layers layerId overrides = false) ∧
    (∀ aid, aid ∈ getAncestorGroupIds layers (layers.findIdx (fun l => l.id == layerId)) →
      ancestorVisible layers overrides aid = false →
      computeEffectiveVisibility layers layerId overrides = false) := by
  have main : computeEffectiveVisibility layers layerId overrides = true ↔
      ∃ layer, layers.find? (fun l => l.id == layerId) = some layer ∧
        ownVisValue overrides layerId layer.visible = true ∧
        ∀ aid ∈ getAncestorGroupIds layers (layers.findIdx (fun l => l.id == layerId)),
          ancestorVisible layers overrides aid = true := by
    cases hf : layers.find? (fun l => l.id == layerId) with
    | none => simp [computeEffectiveVisibility, hf]
    | some layer =>
      cases hov : ownVisValue overrides layerId layer.visible with
      | false =>
        simp [computeEffectiveVisibility, hf, hov]
      | true =>
        simp only [computeEffectiveVisibility, hf, hov, if_true, List.all_eq_true]
        constructor
        · intro h
          exact ⟨layer, rfl, hov, h⟩
        · rintro ⟨layer', hl', _, hanc⟩
          exact hanc
  refine ⟨main, ?_, ?_⟩
  · intro habs
    have hnone : layers.find? (fun l => l.id == layerId) = none := by
      rw [List.find?_eq_none]
      intro l hl
      simpa using habs l hl
    simp [computeEffectiveVisibility, hnone]
  · intro aid hmem hvis
    cases hres : computeEffectiveVisibility layers layerId overrides with
    | false => rfl
    | true =>
      obtain ⟨layer, _, _, hanc⟩ := main.mp hres
      have := hanc aid hmem
      rw [hvis] at this
      exact absurd this (by simp)

/-- Spec §8 sanity example: layers `[group(id=1), leaf(id=2), groupEnd]` with
`overrides = {1: false}` give effective visibility false for layer 2 even
though its own flag is true. -/
theorem effectiveVisibility_example :
    computeEffectiveVisibility
      [⟨1, "group", true⟩, ⟨2, "layer", true⟩, ⟨3, "groupEnd", true⟩]
      2 [(1, false)] = false := by
  decide

/-! ## Interaction config model (src/src/lib/qt-renderer.ts types section).
`group`, `delay`, `triggerOn` arrive through the open index signature and are
read with casts in the interaction store; `delay` is kept when it is a number
(`Option Rat`, `none` for absent or non-numeric). -/

structure InteractionElement where
  layerId : Int
  type : String
  action : Option String := none
  target : Option String := none
  targets : Option (List (String × String)) := none
  name : Option String := none
  value : Option String := none
  showOn : Option (List String) := none
  group : Option String := none
  delay : Option Rat := none
  triggerOn : Option (List String) := none
deriving DecidableEq, Repr

structure InteractionConfig where
  elements : List InteractionElement
  screens : List String
  initialScreen : String
deriving DecidableEq, Repr

/-- A screen timer scheduled by `startScreenTimers`: the captured timer
element and the timeout delay in milliseconds. -/
structure ScheduledTimer where
  elem : InteractionElement
  delayMs : Rat
deriving DecidableEq, Repr

/-- Runtime state of the interaction store (src interaction-store section). -/
structure IState where
  config : Option InteractionConfig := none
  currentScreen : Option String := none
  elementScreenMap : List (Int × Option String) := []
  sliderValues : List (Int × Rat) := []
  clockTimers : List (Int × Nat) := []
  screenTimerIds : List ScheduledTimer := []
  activePopups : List String := []
  selectedHighlights : List (String × String) := []
  dynamicTexts : List (Int × String) := []
deriving DecidableEq

def initState : IState := {}

/-- A render request emitted to the external render collaborator: a batched
visibility override application (`setMultipleVisibility`, which recomposites),
a layer text push (`setLayerText`), or a bare recomposite. -/
inductive Effect where
  | visBatch : List (Int × Bool) → Effect
  | setText : Int → String → Effect
  | recomposite : Effect
deriving DecidableEq, Repr

/-! ## Screen timers (interaction-store `startScreenTimers`/`stopScreenTimers`) -/

/-- `startScreenTimers(config, screenName, navigateToScreen)`: schedule one
timeout per `timer` element whose `triggerOn` includes the destination screen,
with delay `(typeof delay === 'number' ? delay : 5) * 1000` milliseconds. -/
def startScreenTimers (config : InteractionConfig) (screenName : String) : List ScheduledTimer :=
  (config.elements.filter (fun e => e.type == "timer")).filterMap (fun e =>
    match e.triggerOn with
    | none => none
    | some trig =>
      if trig.contains screenName then
        some ⟨e, (match e.delay with | some d => d | none => 5) * 1000⟩
      else none)

/-! ## Screen ancestry (interaction-store `findAncestorScreen`) -/

/-- The backward scan of `findAncestorScreen`, stopping at the first depth-0
group whose id is a screen layer id. -/
def ancestorScreenScan (screenLayerIds : List Int) : List LayerInfo → Nat → Option Int
  | [], _ => none
  | l :: rest, depth =>
    if l.type == "groupEnd" then ancestorScreenScan screenLayerIds rest (depth + 1)
    else if l.type == "group" then
      if depth == 0 then
        if screenLayerIds.contains l.id then some l.id
        else ancestorScreenScan screenLayerIds rest 0
      else ancestorScreenScan screenLayerIds rest (depth - 1)
    else ancestorScreenScan screenLayerIds rest depth

/-- `findAncestorScreen(layers, layerId, screenLayerIds)`. -/
def findAncestorScreen (layers : List LayerInfo) (layerId : Int)
    (screenLayerIds : List Int) : Option Int :=
  match layers.findIdx? (fun l => l.id == layerId) with
  | none => none
  | some layerIndex => ancestorScreenScan screenLayerIds ((layers.take layerIndex).reverse) 0

/-! ## Batched screen visibility (interaction-store `applyScreenVisibility`).
The batch is built in four passes over the config elements: screen folders,
`showOn` elements, highlights, popups. Each pass is a fold that conditionally
`Map.set`s an entry. -/

/-- One conditional-write pass over the elements. -/
def passFold {β : Type} (cond : InteractionElement → Bool) (val : InteractionElement → β)
    (elems : List InteractionElement) (m : List (Int × β)) : List (Int × β) :=
  elems.foldl (fun acc e => if cond e then jmSet acc e.layerId (val e) else acc) m

/-- Pass 1 condition: a `screen` element whose layer id resolves in the PSD. -/
def screenCond (layers : List LayerInfo) (e : InteractionElement) : Bool :=
  e.type == "screen" && layers.any (fun l => l.id == e.layerId)

/-- Pass 2 condition: an element carrying a `showOn` array whose layer id
resolves in the PSD. -/
def showOnCond (layers : List LayerInfo) (e : InteractionElement) : Bool :=
  e.showOn.isSome && layers.any (fun l => l.id == e.layerId)

/-- Pass 3 helper: the selected highlight name for the element's group
(`group ? selectedHighlights.get(group) : undefined`, JS truthiness). -/
def highlightSelectedName (selectedHighlights : List (String × String))
    (e : InteractionElement) : Option String :=
  match e.group with
  | some g => if g == "" then none else jmGet? selectedHighlights g
  | none => none

/-- Pass 4 value: `activePopups.has(elem.name!)`. -/
def popupVal (activePopups : List String) (e : InteractionElement) : Bool :=
  match e.name with
  | some n => activePopups.contains n
  | none => false

/-- The override batch built by `applyScreenVisibility`. -/
def applyScreenVisibilityBatch (config : InteractionConfig) (screenName : String)
    (activePopups : List String) (selectedHighlights : List (String × String))
    (layers : List LayerInfo) : List (Int × Bool) :=
  let m1 := passFold (screenCond layers) (fun e => e.name == some screenName)
    config.elements []
  let m2 := passFold (showOnCond layers) (fun e => (e.showOn.getD []).contains screenName)
    config.elements m1
  let m3 := passFold (fun e => e.type == "highlight")
    (fun e => e.name == highlightSelectedName selectedHighlights e) config.elements m2
  passFold (fun e => e.type == "popup") (popupVal activePopups) config.elements m3

/-- `applyScreenVisibility`: no batch at all when no PSD is loaded, else one
batched `setMultipleVisibility`. -/
def applyScreenVisibility (config : InteractionConfig) (screenName : String)
    (activePopups : List String) (selectedHighlights : List (String × String))
    (psdLayers : Option (List LayerInfo)) : Option (List (Int × Bool)) :=
  match psdLayers with
  | none => none
  | some layers =>
    some (applyScreenVisibilityBatch config screenName activePopups selectedHighlights layers)

/-! ## Engine transitions. Each returns the new state and the list of render
effects issued, in order. -/

/-- `navigateToScreen(screenName)`: cancel all screen timers, set the current
screen, clear popups (keeping highlights), apply one visibility batch, start
the destination screen's timers. No-op when no config is loaded. -/
def navigateToScreen (psdLayers : Option (List LayerInfo)) (st : IState)
    (screenName : String) : IState × List Effect :=
  match st.config with
  | none => (st, [])
  | some config =>
    let st1 : IState := { st with
      currentScreen := some screenName
      activePopups := []
      screenTimerIds := startScreenTimers config screenName }
    match applyScreenVisibility config screenName [] st.selectedHighlights psdLayers with
    | some b => (st1, [Effect.visBatch b])
    | none => (st1, [])

/-- `setSliderValue(layerId, value)`. -/
def setSliderValueFn (st : IState) (layerId : Int) (value : Rat) : IState × List Effect :=
  ({ st with sliderValues := jmSet st.sliderValues layerId value }, [])

/-- `setDynamicText(layerId, text)`. -/
def setDynamicTextFn (st : IState) (layerId : Int) (text : String) : IState :=
  { st with dynamicTexts := jmSet st.dynamicTexts layerId text }

/-- `clear()`: cancel every timer and reset every map to empty. -/
def clearFn (_st : IState) : IState × List Effect :=
  (initState, [])

/-- The `dynamicTexts` seed of `setConfig`: each `display`/`dynamic_text`
element's `value ?? '--'`. -/
def initialTextsOf (config : InteractionConfig) : List (Int × String) :=
  passFold (fun e => e.type == "display" || e.type == "dynamic_text")
    (fun e => e.value.getD "--") config.elements []

/-- The `elementScreenMap` built by `setConfig`: for each non-screen element,
the name of its nearest ancestor screen folder (the stored name is the screen
element's possibly missing `name!`). -/
def elementScreenMapOf (config : InteractionConfig) (layers : List LayerInfo) :
    List (Int × Option String) :=
  let screenElements := config.elements.filter (fun e => e.type == "screen")
  let screenLayerIds := screenElements.map (fun e => e.layerId)
  let nameById := screenElements.foldl (fun m e => jmSet m e.layerId e.name)
    ([] : List (Int × Option String))
  config.elements.foldl (fun m e =>
    if e.type == "screen" then m
    else
      match findAncestorScreen layers e.layerId screenLayerIds with
      | some sid => jmSet m e.layerId ((jmGet? nameById sid).getD none)
      | none => m) []

/-- `setConfig(config)`: stop clocks and screen timers, seed the dynamic
texts, build the element→screen map, reset the runtime maps, push every
display's initial text, apply the initial screen's visibility batch, and
start the initial screen's timers. -/
def setConfigFn (psdLayers : Option (List LayerInfo)) (_st : IState)
    (config : InteractionConfig) : IState × List Effect :=
  let layers := psdLayers.getD []
  let st1 : IState := {
    config := some config
    currentScreen := some config.initialScreen
    elementScreenMap := elementScreenMapOf config layers
    sliderValues := []
    clockTimers := []
    screenTimerIds := startScreenTimers config config.initialScreen
    activePopups := []
    selectedHighlights := []
    dynamicTexts := initialTextsOf config }
  let textEffects := (config.elements.filter
      (fun e => e.type == "display" || e.type == "dynamic_text")).map
    (fun e => Effect.setText e.layerId (e.value.getD "--"))
  let visEffects := match applyScreenVisibility config config.initialScreen [] [] psdLayers with
    | some b => [Effect.visBatch b]
    | none => []
  (st1, textEffects ++ visEffects)

/-! ## Action dispatch (interaction-store `executeAction`) -/

/-- JS `s.split(',')` for the one-character separator: every maximal
comma-free segment, keeping empties (`"".split(',')` is `[""]`). -/
def splitCommaAux : List Char → List Char → List String
  | [], acc => [String.mk acc.reverse]
  | c :: rest, acc =>
    if c = ',' then String.mk acc.reverse :: splitCommaAux rest []
    else splitCommaAux rest (c :: acc)

def splitComma (s : String) : List String :=
  splitCommaAux s.data []

/-- Whitespace as JS `trim` removes it (the ASCII cases). -/
def isJsSpace (c : Char) : Bool :=
  c = ' ' || c = '\t' || c = '\n' || c = '\r' || c = '\x0b' || c = '\x0c'

/-- JS `s.trim()`. -/
def trimJs (s : String) : String :=
  String.mk (((s.data.dropWhile isJsSpace).reverse.dropWhile isJsSpace).reverse)

/-- The comma-separated `target` resolved to display elements: split on commas,
trim, drop empties, resolve each name to the first `display`/`dynamic_text`
element with that name, and drop unresolved names. -/
def resolveDisplays (config : InteractionConfig) (target : Option String) :
    List InteractionElement :=
  let targetNames := ((splitComma (target.getD "")).map trimJs).filter
    (fun s => !(s == ""))
  targetNames.filterMap (fun nm => config.elements.find? (fun e =>
    (e.type == "display" || e.type == "dynamic_text") && e.name == some nm))

/-- The `input_digit` branch of `executeAction`. -/
def execInputDigit (st : IState) (element : InteractionElement) : IState × List Effect :=
  match st.config with
  | none => (st, [])
  | some config =>
    let displayElems := resolveDisplays config element.target
    if displayElems.isEmpty then (st, [])
    else
      let digit := element.value.getD ""
      match displayElems with
      | [d] =>
        -- Single display: 2-character shift-register logic with sentinel '-'.
        let current := jsOr (jmGet? st.dynamicTexts d.layerId) "--"
        let d1 := charAt current 0
        let d2 := charAt current 1
        let next :=
          if d1 == "-" && d2 == "-" then "-" ++ digit
          else if d1 == "-" && !(d2 == "-") then d2 ++ digit
          else current
        (setDynamicTextFn st d.layerId next,
          [Effect.setText d.layerId next, Effect.recomposite])
      | _ =>
        -- Multiple displays: one character each, shift left, digit at the end.
        let allFilled := displayElems.all (fun d =>
          !(jsOr (jmGet? st.dynamicTexts d.layerId) "-" == "-"))
        if allFilled then (st, [])
        else
          let currentValues := displayElems.map (fun d =>
            jsOr (jmGet? st.dynamicTexts d.layerId) "-")
          let dyn1 := (displayElems.zip (currentValues.drop 1)).foldl
            (fun m p => jmSet m p.1.layerId p.2) st.dynamicTexts
          let dyn2 := match displayElems.getLast? with
            | some dl => jmSet dyn1 dl.layerId digit
            | none => dyn1
          ({ st with dynamicTexts := dyn2 },
            (displayElems.map (fun d =>
              Effect.setText d.layerId (jsOr (jmGet? dyn2 d.layerId) "-"))) ++
              [Effect.recomposite])

/-- The `show_highlight`/`toggle_highlight` branch of `executeAction`. -/
def execHighlight (st : IState) (element : InteractionElement) : IState × List Effect :=
  match st.config with
  | none => (st, [])
  | some config =>
    match config.elements.find? (fun e => e.type == "highlight" && e.name == element.target) with
    | none => (st, [])
    | some targetElem =>
      match targetElem.group with
      | none => (st, [])
      | some group =>
        if group == "" then (st, [])
        else
          let currentSelected := jmGet? st.selectedHighlights group
          let isToggleOff := element.action == some "toggle_highlight" &&
            currentSelected == element.target
          let groupHighlights := config.elements.filter
            (fun e => e.type == "highlight" && e.group == some group)
          let overrides := groupHighlights.foldl (fun m h =>
            jmSet m h.layerId (if isToggleOff then false else h.name == element.target)) []
          let newSelected :=
            if isToggleOff then jmDelete st.selectedHighlights group
            else jmSet st.selectedHighlights group (element.target.getD "")
          ({ st with selectedHighlights := newSelected }, [Effect.visBatch overrides])

/-- The `show_popup` branch of `executeAction`. -/
def execShowPopup (st : IState) (element : InteractionElement) : IState × List Effect :=
  match st.config with
  | none => (st, [])
  | some config =>
    match config.elements.find? (fun e => e.type == "popup" && e.name == element.target) with
    | none => (st, [])
    | some popupElem =>
      let overrides := jmSet ([] : List (Int × Bool)) popupElem.layerId true
      ({ st with activePopups := setAdd st.activePopups (element.target.getD "") },
        [Effect.visBatch overrides])

/-- The `hide_popup`/`navigate_from_popup` branch of `executeAction`. -/
def execHidePopup (psdLayers : Option (List LayerInfo)) (st : IState)
    (element : InteractionElement) : IState × List Effect :=
  let st1 : IState := { st with activePopups := [] }
  if truthyS element.target then
    navigateToScreen psdLayers st1 (element.target.getD "")
  else
    match st1.config with
    | none => (st1, [])
    | some config =>
      match st1.currentScreen with
      | none => (st1, [])
      | some cur =>
        if cur == "" then (st1, [])
        else
          match applyScreenVisibility config cur [] st1.selectedHighlights psdLayers with
          | some b => (st1, [Effect.visBatch b])
          | none => (st1, [])

/-- The `clear_input` branch of `executeAction`. -/
def execClearInput (st : IState) (element : InteractionElement) : IState × List Effect :=
  match st.config with
  | none => (st, [])
  | some config =>
    let displayElems := resolveDisplays config element.target
    if displayElems.isEmpty then (st, [])
    else
      let newDyn := displayElems.foldl (fun m d => jmSet m d.layerId (d.value.getD "-"))
        st.dynamicTexts
      ({ st with dynamicTexts := newDyn },
        (displayElems.map (fun d => Effect.setText d.layerId (d.value.getD "-"))) ++
          [Effect.recomposite])

/-- The `navigate_conditional` branch of `executeAction`: look up the current
screen in the `targets` record and navigate when a truthy destination is
found. -/
def execNavigateConditional (psdLayers : Option (List LayerInfo)) (st : IState)
    (element : InteractionElement) : IState × List Effect :=
  match st.currentScreen with
  | none => (st, [])
  | some cur =>
    if cur == "" then (st, [])
    else
      match jmGet? (element.targets.getD []) cur with
      | some dest => if dest == "" then (st, []) else navigateToScreen psdLayers st dest
      | none => (st, [])

/-- `executeAction(element)`: dispatch on `element.action`, in source order. -/
def executeAction (psdLayers : Option (List LayerInfo)) (st : IState)
    (element : InteractionElement) : IState × List Effect :=
  if element.action == some "navigate" && truthyS element.target then
    navigateToScreen psdLayers st (element.target.getD "")
  else if element.action == some "navigate_conditional" && element.targets.isSome then
    execNavigateConditional psdLayers st element
  else if element.action == some "input_digit" && element.value.isSome then
    execInputDigit st element
  else if (element.action == some "show_highlight" ||
      element.action == some "toggle_highlight") && truthyS element.target then
    execHighlight st element
  else if element.action == some "show_popup" && truthyS element.target then
    execShowPopup st element
  else if element.action == some "hide_popup" ||
      element.action == some "navigate_from_popup" then
    execHidePopup psdLayers st element
  else if element.action == some "clear_input" then
    execClearInput st element
  else (st, [])

/-- Firing a scheduled screen timer: the timeout handle is spent, then the
callback navigates when the captured element says `action:"navigate"` with a
truthy target. -/
def fireTimer (psdLayers : Option (List LayerInfo)) (st : IState)
    (t : ScheduledTimer) : IState × List Effect :=
  let st1 : IState := { st with screenTimerIds := st.screenTimerIds.erase t }
  if t.elem.action == some "navigate" && truthyS t.elem.target then
    navigateToScreen psdLayers st1 (t.elem.target.getD "")
  else (st1, [])

/-! ## Lemmas about the JS map model -/

theorem find?_key_append_single {α β : Type} [DecidableEq α] (m : List (α × β)) (k : α) (v : β)
    (h : ∀ p ∈ m, ¬ p.1 = k) :
    (m ++ [(k, v)]).find? (fun p => p.1 == k) = some (k, v) := by
  induction m with
  | nil => simp
  | cons p rest ih =>
    have hp : (p.1 == k) = false := beq_eq_false_iff_ne.mpr (h p (by simp))
    rw [List.cons_append]
    simp only [List.find?_cons, hp]
    exact ih (fun q hq => h q (by simp [hq]))

theorem find?_key_append_single_ne {α β : Type} [DecidableEq α] (m : List (α × β))
    (k k' : α) (v : β) (hne : ¬ k' = k) :
    (m ++ [(k, v)]).find? (fun p => p.1 == k') = m.find? (fun p => p.1 == k') := by
  induction m with
  | nil =>
    have hk : (k == k') = false := beq_eq_false_iff_ne.mpr (fun hk => hne hk.symm)
    simp [List.find?_cons, hk]
  | cons p rest ih =>
    rw [List.cons_append]
    by_cases hp' : p.1 = k'
    · have hb : (p.1 == k') = true := by simpa using hp'
      simp only [List.find?_cons, hb]
    · have hb : (p.1 == k') = false := beq_eq_false_iff_ne.mpr hp'
      simp only [List.find?_cons, hb]
      exact ih

theorem find?_key_map_update_self {α β : Type} [DecidableEq α] (m : List (α × β)) (k : α) (v : β)
    (h : m.any (fun p => p.1 == k) = true) :
    (m.map (fun p => if p.1 == k then (k, v) else p)).find? (fun p => p.1 == k) =
      some (k, v) := by
  induction m with
  | nil => simp at h
  | cons p rest ih =>
    by_cases hp : p.1 = k
    · have hb : (p.1 == k) = true := by simpa using hp
      simp only [List.map_cons]
      rw [if_pos hb]
      simp [List.find?_cons]
    · have hb : (p.1 == k) = false := beq_eq_false_iff_ne.mpr hp
      have hrest : rest.any (fun p => p.1 == k) = true := by
        simpa [List.any_cons, hp] using h
      simp only [List.map_cons, hb, Bool.false_eq_true, if_false, List.find?_cons]
      exact ih hrest

theorem find?_key_map_update_ne {α β : Type} [DecidableEq α] (m : List (α × β))
    (k k' : α) (v : β) (hne : ¬ k' = k) :
    (m.map (fun p => if p.1 == k then (k, v) else p)).find? (fun p => p.1 == k') =
      m.find? (fun p => p.1 == k') := by
  induction m with
  | nil => rfl
  | cons p rest ih =>
    by_cases hp : p.1 = k
    · have hb : (p.1 == k) = true := by simpa using hp
      have h1 : ((k : α) == k') = false := beq_eq_false_iff_ne.mpr (fun hk => hne hk.symm)
      have h2 : (p.1 == k') = false := beq_eq_false_iff_ne.mpr (by
        intro hk
        exact hne (by rw [← hk, hp]))
      simp only [List.map_cons, hb, if_true, List.find?_cons, h1, h2]
      exact ih
    · have hb : (p.1 == k) = false := beq_eq_false_iff_ne.mpr hp
      simp only [List.map_cons, hb, Bool.false_eq_true, if_false, List.find?_cons]
      by_cases hp' : p.1 = k'
      · have hb' : (p.1 == k') = true := by simpa using hp'
        simp only [hb']
      · have hb' : (p.1 == k') = false := beq_eq_false_iff_ne.mpr hp'
        simp only [hb']
        exact ih

theorem jmGet?_jmSet_self {α β : Type} [DecidableEq α] (m : List (α × β)) (k : α) (v : β) :
    jmGet? (jmSet m k v) k = some v := by
  unfold jmSet jmGet?
  by_cases h : m.any (fun p => p.1 == k)
  · rw [if_pos h, find?_key_map_update_self m k v h]; rfl
  · rw [if_neg h, find?_key_append_single m k v (by
      intro p hp hk
      exact h (List.any_eq_true.mpr ⟨p, hp, by simpa using hk⟩))]
    rfl

theorem jmGet?_jmSet_ne {α β : Type} [DecidableEq α] (m : List (α × β)) (k k' : α) (v : β)
    (hne : ¬ k' = k) : jmGet? (jmSet m k v) k' = jmGet? m k' := by
  unfold jmSet jmGet?
  by_cases h : m.any (fun p => p.1 == k)
  · rw [if_pos h, find?_key_map_update_ne m k k' v hne]
  · rw [if_neg h, find?_key_append_single_ne m k k' v hne]

theorem jmGet?_foldl_jmSet_of_not_key {α β : Type} [DecidableEq α]
    (kvs : List (α × β)) (k : α) (h : ∀ p ∈ kvs, ¬ p.1 = k) :
    ∀ m0 : List (α × β), jmGet? (kvs.foldl (fun m p => jmSet m p.1 p.2) m0) k = jmGet? m0 k := by
  induction kvs with
  | nil => intro m0; rfl
  | cons p rest ih =>
    intro m0
    rw [List.foldl_cons]
    rw [ih (fun q hq => h q (by simp [hq]))]
    exact jmGet?_jmSet_ne _ _ _ _ (fun hk => h p (by simp) hk.symm) |>.trans rfl

theorem jmGet?_foldl_jmSet_of_mem {α β : Type} [DecidableEq α]
    (kvs : List (α × β)) (k : α) (v : β) (hmem : (k, v) ∈ kvs)
    (hnd : (kvs.map Prod.fst).Nodup) :
    ∀ m0 : List (α × β), jmGet? (kvs.foldl (fun m p => jmSet m p.1 p.2) m0) k = some v := by
  induction kvs with
  | nil => cases hmem
  | cons p rest ih =>
    intro m0
    rw [List.foldl_cons]
    rcases List.mem_cons.mp hmem with hhead | htail
    · subst hhead
      have hrest : ∀ q ∈ rest, ¬ q.1 = k := by
        intro q hq hk
        have : k ∈ rest.map Prod.fst := List.mem_map.mpr ⟨q, hq, hk⟩
        exact (List.nodup_cons.mp hnd).1 this
      rw [jmGet?_foldl_jmSet_of_not_key rest k hrest]
      exact jmGet?_jmSet_self m0 k v
    · exact ih htail (List.nodup_cons.mp hnd).2 _

theorem jmKeys_jmSet_nodup {α β : Type} [DecidableEq α] (m : List (α × β)) (k : α) (v : β)
    (h : (jmKeys m).Nodup) : (jmKeys (jmSet m k v)).Nodup := by
  unfold jmSet
  by_cases hany : m.any (fun p => p.1 == k)
  · rw [if_pos hany]
    have hkeys : jmKeys (m.map (fun p => if p.1 == k then (k, v) else p)) = jmKeys m := by
      unfold jmKeys
      rw [List.map_map]
      apply List.map_congr_left
      intro p _
      by_cases hp : p.1 = k
      · simp [hp]
      · simp [hp]
    rw [hkeys]; exact h
  · rw [if_neg hany]
    unfold jmKeys
    rw [List.map_append]
    have hk : k ∉ m.map Prod.fst := by
      intro hkm
      obtain ⟨p, hp, hpk⟩ := List.mem_map.mp hkm
      exact hany (List.any_eq_true.mpr ⟨p, hp, by simpa using hpk⟩)
    simpa using List.Nodup.append h (by simp) (by
      intro a ha hb
      simp at hb
      subst hb
      exact hk ha)

theorem jmKeys_jmDelete_nodup {α β : Type} [DecidableEq α] (m : List (α × β)) (k : α)
    (h : (jmKeys m).Nodup) : (jmKeys (jmDelete m k)).Nodup := by
  unfold jmDelete jmKeys
  exact List.Nodup.sublist ((List.filter_sublist m).map Prod.fst) h

theorem jmGet?_jmDelete_self {α β : Type} [DecidableEq α] (m : List (α × β)) (k : α) :
    jmGet? (jmDelete m k) k = none := by
  unfold jmDelete jmGet?
  rw [Option.map_eq_none', List.find?_eq_none]
  intro p hp
  have := (List.mem_filter.mp hp).2
  simpa using this

/-! ## Lemmas about the visibility batch passes -/

theorem passFold_cons {β : Type} (cond : InteractionElement → Bool)
    (val : InteractionElement → β) (e : InteractionElement)
    (L : List InteractionElement) (m : List (Int × β)) :
    passFold cond val (e :: L) m =
      passFold cond val L (if cond e = true then jmSet m e.layerId (val e) else m) := rfl

theorem passFold_get_no_writer {β : Type} (cond : InteractionElement → Bool)
    (val : InteractionElement → β) (k : Int) :
    ∀ (L : List InteractionElement) (m : List (Int × β)),
      (∀ e ∈ L, cond e = true → ¬ e.layerId = k) →
      jmGet? (passFold cond val L m) k = jmGet? m k := by
  intro L
  induction L with
  | nil => intro m _; rfl
  | cons e rest ih =>
    intro m h
    rw [passFold_cons]
    by_cases hc : cond e = true
    · rw [if_pos hc, ih _ (fun q hq => h q (by simp [hq]))]
      exact jmGet?_jmSet_ne _ _ _ _ (fun hk => h e (by simp) hc hk.symm)
    · rw [if_neg hc]
      exact ih _ (fun q hq => h q (by simp [hq]))

theorem passFold_get_unique_writer {β : Type} (cond : InteractionElement → Bool)
    (val : InteractionElement → β) (k : Int)
    (e : InteractionElement) :
    ∀ (L : List InteractionElement) (m : List (Int × β)),
      L.filter (fun x => cond x && x.layerId == k) = [e] →
      jmGet? (passFold cond val L m) k = some (val e) := by
  intro L
  induction L with
  | nil => intro m h; cases h
  | cons x rest ih =>
    intro m h
    rw [passFold_cons]
    by_cases hc : (cond x && x.layerId == k) = true
    · rw [List.filter_cons, if_pos hc] at h
      obtain ⟨hx, hrest⟩ : x = e ∧ rest.filter (fun x => cond x && x.layerId == k) = [] := by
        constructor
        · exact (List.cons_eq_cons.mp h).1
        · exact (List.cons_eq_cons.mp h).2
      subst hx
      obtain ⟨hcond, hkey⟩ : cond x = true ∧ x.layerId = k := by simpa using hc
      rw [if_pos hcond]
      have hnowriter : ∀ q ∈ rest, cond q = true → ¬ q.layerId = k := by
        intro q hq hqc hqk
        have : q ∈ rest.filter (fun x => cond x && x.layerId == k) :=
          List.mem_filter.mpr ⟨hq, by simp [hqc, hqk]⟩
        rw [hrest] at this
        cases this
      rw [passFold_get_no_writer cond val k rest _ hnowriter, hkey]
      exact jmGet?_jmSet_self _ _ _
    · rw [List.filter_cons, if_neg hc] at h
      by_cases hcx : cond x = true
      · rw [if_pos hcx]
        exact ih _ h
      · rw [if_neg hcx]
        exact ih _ h

/-! ## The screen pass of the navigate batch -/

theorem applyScreenVisibilityBatch_screen_lookup
    (cfg : InteractionConfig) (screenName : String) (popups : List String)
    (sel : List (String × String)) (layers : List LayerInfo) (e : InteractionElement)
    (htype : e.type = "screen") (hshow : e.showOn = none)
    (huniq : cfg.elements.filter (fun x => x.layerId == e.layerId) = [e])
    (hres : layers.any (fun l => l.id == e.layerId) = true) :
    jmGet? (applyScreenVisibilityBatch cfg screenName popups sel layers) e.layerId =
      some (e.name == some screenName) := by
  have hx_eq : ∀ x ∈ cfg.elements, x.layerId = e.layerId → x = e := by
    intro x hx hk
    have hmem : x ∈ cfg.elements.filter (fun y => y.layerId == e.layerId) :=
      List.mem_filter.mpr ⟨hx, by simpa using hk⟩
    rw [huniq] at hmem
    simpa using hmem
  unfold applyScreenVisibilityBatch
  rw [passFold_get_no_writer _ _ _ _ _ (by
    intro x hx hcond hk
    have hxe := hx_eq x hx hk
    subst hxe
    rw [htype] at hcond
    simp at hcond)]
  rw [passFold_get_no_writer _ _ _ _ _ (by
    intro x hx hcond hk
    have hxe := hx_eq x hx hk
    subst hxe
    rw [htype] at hcond
    simp at hcond)]
  rw [passFold_get_no_writer _ _ _ _ _ (by
    intro x hx hcond hk
    have hxe := hx_eq x hx hk
    subst hxe
    unfold showOnCond at hcond
    rw [hshow] at hcond
    simp at hcond)]
  apply passFold_get_unique_writer
  rw [← List.filter_filter, huniq, List.filter_cons]
  rw [if_pos (by unfold screenCond; rw [htype]; simpa using hres)]
  rfl

/-- C2 (corrected) theorem: with a config loaded, `navigate(screenName)`
replaces the pending screen timers with exactly the destination screen's
timers, sets `currentScreen`, empties `activePopups`, leaves
`selectedHighlights` unchanged, and issues exactly one batched visibility
override; in that batch every element of type `screen` whose layer id occurs
in the loaded layers, carries no `showOn`, and is the only config element
with its layer id, is visible iff its name equals `screenName`. -/
theorem navigate_correct (layers : List LayerInfo) (st : IState) (cfg : InteractionConfig)
    (screenName : String) (hc : st.config = some cfg) :
    (navigateToScreen (some layers) st screenName).1.currentScreen = some screenName ∧
    (navigateToScreen (some layers) st screenName).1.activePopups = [] ∧
    (navigateToScreen (some layers) st screenName).1.selectedHighlights =
      st.selectedHighlights ∧
    (navigateToScreen (some layers) st screenName).1.screenTimerIds =
      startScreenTimers cfg screenName ∧
    (navigateToScreen (some layers) st screenName).2 =
      [Effect.visBatch (applyScreenVisibilityBatch cfg screenName [] st.selectedHighlights layers)] ∧
    ∀ e ∈ cfg.elements, e.type = "screen" → e.showOn = none →
      cfg.elements.filter (fun x => x.layerId == e.layerId) = [e] →
      layers.any (fun l => l.id == e.layerId) = true →
      jmGet? (applyScreenVisibilityBatch cfg screenName [] st.selectedHighlights layers)
        e.layerId = some (e.name == some screenName) := by
  have hnav1 : (navigateToScreen (some layers) st screenName).1 = { st with currentScreen := some screenName, activePopups := [], screenTimerIds := startScreenTimers cfg screenName } := by
    simp [navigateToScreen, hc, applyScreenVisibility]
  have hnav2 : (navigateToScreen (some layers) st screenName).2 = [Effect.visBatch (applyScreenVisibilityBatch cfg screenName [] st.selectedHighlights layers)] := by
    simp [navigateToScreen, hc, applyScreenVisibility]
  refine ⟨by rw [hnav1], by rw [hnav1], by rw [hnav1], by rw [hnav1], hnav2, ?_⟩
  intro e he htype hshow huniq hres
  exact applyScreenVisibilityBatch_screen_lookup cfg screenName [] st.selectedHighlights
    layers e htype hshow huniq hres

/-! Concrete instances for the navigation claims: screen elements `a` on
layer 10 and `b` on layer 20. -/

def screenElemA : InteractionElement := { layerId := 10, type := "screen", name := some "a" }

def screenElemB : InteractionElement := { layerId := 20, type := "screen", name := some "b" }

def navCfg : InteractionConfig :=
  { elements := [screenElemA, screenElemB], screens := ["a", "b"], initialScreen := "a" }

def navSt : IState := { config := some navCfg, currentScreen := some "a" }

def fullLayers : List LayerInfo := [⟨10, "group", true⟩, ⟨20, "group", true⟩]

def partialLayers : List LayerInfo := [⟨20, "group", true⟩]

/-- C2 counterexample: when screen element `a` (layerId 10) does not resolve
to a loaded layer, `navigate("b")` emits a batch with no entry for 10 at all
— not the `10 → false` entry the claim requires for every screen element. -/
theorem navigate_screen_cex :
    (navigateToScreen (some partialLayers) navSt "b").2 =
      [Effect.visBatch [(20, true)]] ∧
    jmGet? [((20 : Int), true)] 10 = none ∧
    screenElemA.type = "screen" ∧ ¬ screenElemA.name = some "b" := by
  refine ⟨by decide, by decide, rfl, by decide⟩

/-- C2 witness: the claim's own example — screens `a`(10) and `b`(20) both
resolvable; after `navigate("b")` the batch maps 10 to `false` and 20 to
`true`, the current screen is `b`, popups are empty and highlights kept. -/
theorem navigate_correct_witness :
    (navigateToScreen (some fullLayers) navSt "b").1.currentScreen = some "b" ∧
    (navigateToScreen (some fullLayers) navSt "b").1.activePopups = [] ∧
    (navigateToScreen (some fullLayers) navSt "b").1.selectedHighlights =
      navSt.selectedHighlights ∧
    jmGet? (applyScreenVisibilityBatch navCfg "b" [] navSt.selectedHighlights fullLayers)
      10 = some false ∧
    jmGet? (applyScreenVisibilityBatch navCfg "b" [] navSt.selectedHighlights fullLayers)
      20 = some true := by
  have h := navigate_correct fullLayers navSt navCfg "b" rfl
  refine ⟨h.1, h.2.1, h.2.2.1, ?_, ?_⟩
  · have hA := h.2.2.2.2.2 screenElemA (by simp [navCfg]) rfl rfl (by decide) (by decide)
    simpa [screenElemA] using hA
  · have hB := h.2.2.2.2.2 screenElemB (by simp [navCfg]) rfl rfl (by decide) (by decide)
    simpa [screenElemB] using hB

/-- C8: `setSliderValue(layerId, value)` updates only the `sliderValues` entry
for `layerId`: every other state component — current screen, popups,
highlights, dynamic texts, element→screen map, clock and screen timers,
loaded config — is unchanged, and no render effect (no text push, no
visibility batch, no recomposite) is issued. -/
theorem setSliderValue_correct (st : IState) (layerId : Int) (value : Rat) :
    (setSliderValueFn st layerId value).1.sliderValues =
      jmSet st.sliderValues layerId value ∧
    (setSliderValueFn st layerId value).1.config = st.config ∧
    (setSliderValueFn st layerId value).1.currentScreen = st.currentScreen ∧
    (setSliderValueFn st layerId value).1.elementScreenMap = st.elementScreenMap ∧
    (setSliderValueFn st layerId value).1.clockTimers = st.clockTimers ∧
    (setSliderValueFn st layerId value).1.screenTimerIds = st.screenTimerIds ∧
    (setSliderValueFn st layerId value).1.activePopups = st.activePopups ∧
    (setSliderValueFn st layerId value).1.selectedHighlights = st.selectedHighlights ∧
    (setSliderValueFn st layerId value).1.dynamicTexts = st.dynamicTexts ∧
    (setSliderValueFn st layerId value).2 = [] :=
  ⟨rfl, rfl, rfl, rfl, rfl, rfl, rfl, rfl, rfl, rfl⟩

/-- C10: `startScreenTimers` schedules every timer element whose `triggerOn`
contains the destination screen, with timeout `delay * 1000` milliseconds
when `delay` is a number and `5 * 1000` when it is absent or non-numeric;
and every scheduled timer arises that way. -/
theorem startScreenTimers_delay_correct (cfg : InteractionConfig) (screenName : String) :
    (∀ t ∈ startScreenTimers cfg screenName,
      (t.elem.delay = none → t.delayMs = 5000) ∧
      (∀ d : Rat, t.elem.delay = some d → t.delayMs = d * 1000)) ∧
    (∀ e ∈ cfg.elements, e.type = "timer" →
      ∀ trig, e.triggerOn = some trig → trig.contains screenName = true →
        (⟨e, (match e.delay with | some d => d | none => 5) * 1000⟩ : ScheduledTimer) ∈
          startScreenTimers cfg screenName) := by
  constructor
  · intro t ht
    obtain ⟨e, he, hmk⟩ := List.mem_filterMap.mp ht
    constructor
    · intro hd
      cases htr : e.triggerOn with
      | none => rw [htr] at hmk; cases hmk
      | some trig =>
        rw [htr] at hmk
        by_cases hct : trig.contains screenName = true
        · simp only [hct, if_true] at hmk
          cases hmk
          have hd' : e.delay = none := hd
          simp [hd']
          norm_num
        · simp only [hct, Bool.false_eq_true, if_false] at hmk
          cases hmk
    · intro d hd
      cases htr : e.triggerOn with
      | none => rw [htr] at hmk; cases hmk
      | some trig =>
        rw [htr] at hmk
        by_cases hct : trig.contains screenName = true
        · simp only [hct, if_true] at hmk
          cases hmk
          have hd' : e.delay = some d := hd
          simp [hd']
        · simp only [hct, Bool.false_eq_true, if_false] at hmk
          cases hmk
  · intro e he htype trig htr hct
    apply List.mem_filterMap.mpr
    refine ⟨e, ?_, ?_⟩
    · exact List.mem_filter.mpr ⟨he, by simpa using htype⟩
    · rw [htr]
      simp only [hct, if_true]

def timerElemNoDelay : InteractionElement :=
  { layerId := 0, type := "timer", action := some "navigate", target := some "a", triggerOn := some ["done"] }

def timerElemDelay2 : InteractionElement :=
  { layerId := 0, type := "timer", delay := some 2, triggerOn := some ["done"] }

def timerCfgA : InteractionConfig :=
  { elements := [timerElemNoDelay], screens := ["a", "done"], initialScreen := "a" }

def timerCfgB : InteractionConfig :=
  { elements := [timerElemDelay2], screens := ["a", "done"], initialScreen := "a" }

/-- C10 witness: a timer with no `delay` is scheduled at 5000 ms, one with
`delay := 2` at 2000 ms, on the screen its `triggerOn` names. -/
theorem startScreenTimers_delay_witness :
    (⟨timerElemNoDelay, 5000⟩ : ScheduledTimer) ∈ startScreenTimers timerCfgA "done" ∧
    (⟨timerElemDelay2, 2000⟩ : ScheduledTimer) ∈ startScreenTimers timerCfgB "done" := by
  have h5 : ((5 : Rat) * 1000) = 5000 := by norm_num
  have h2 : ((2 : Rat) * 1000) = 2000 := by norm_num
  constructor
  · have hA := (startScreenTimers_delay_correct timerCfgA "done").2 timerElemNoDelay
      (by simp [timerCfgA]) rfl ["done"] rfl (by decide)
    simpa [timerElemNoDelay, h5] using hA
  · have hB := (startScreenTimers_delay_correct timerCfgB "done").2 timerElemDelay2
      (by simp [timerCfgB]) rfl ["done"] rfl (by decide)
    simpa [timerElemDelay2, h2] using hB

/-! ## Lemmas for the multi-display shift fold -/

theorem jmGet?_pairsFold_not_key (pairs : List (InteractionElement × String)) (k : Int)
    (h : ∀ p ∈ pairs, ¬ p.1.layerId = k) :
    ∀ m0 : List (Int × String),
      jmGet? (pairs.foldl (fun m p => jmSet m p.1.layerId p.2) m0) k = jmGet? m0 k := by
  induction pairs with
  | nil => intro m0; rfl
  | cons p rest ih =>
    intro m0
    rw [List.foldl_cons, ih (fun q hq => h q (by simp [hq]))]
    exact jmGet?_jmSet_ne _ _ _ _ (fun hk => h p (by simp) hk.symm)

theorem shiftFold_lookup (f : InteractionElement → String) :
    ∀ (ds : List InteractionElement) (m0 : List (Int × String)),
      (ds.map (fun d => d.layerId)).Nodup →
      ∀ (i : Nat) (a b : InteractionElement), ds[i]? = some a → ds[i + 1]? = some b →
        jmGet? ((ds.zip ((ds.drop 1).map f)).foldl (fun m p => jmSet m p.1.layerId p.2) m0)
          a.layerId = some (f b) := by
  intro ds
  induction ds with
  | nil => intro m0 _ i a b ha _; simp at ha
  | cons x rest ih =>
    intro m0 hnd i a b ha hb
    cases rest with
    | nil =>
      rcases i with _ | j
      · simp at hb
      · simp at hb
    | cons y rest' =>
      simp only [List.drop_succ_cons, List.drop_zero] at ih ⊢
      rcases i with _ | j
      · have hax : x = a := by simpa using ha
        have hby : y = b := by simpa using hb
        subst hax
        subst hby
        have hnotin : ∀ p ∈ (y :: rest').zip ((rest').map f), ¬ p.1.layerId = x.layerId := by
          intro p hp hk
          have hmem := (List.of_mem_zip (show (p.1, p.2) ∈ _ from hp)).1
          have : x.layerId ∈ (y :: rest').map (fun d => d.layerId) :=
            List.mem_map.mpr ⟨p.1, hmem, hk⟩
          exact (List.nodup_cons.mp hnd).1 this
        have hzip : (x :: y :: rest').zip ((y :: rest').map f) =
            (x, f y) :: ((y :: rest').zip ((rest').map f)) := by
          simp [List.zip_cons_cons]
        rw [hzip, List.foldl_cons, jmGet?_pairsFold_not_key _ _ hnotin]
        exact jmGet?_jmSet_self _ _ _
      · have ha' : (y :: rest')[j]? = some a := by simpa using ha
        have hb' : (y :: rest')[j + 1]? = some b := by simpa using hb
        have hzip : (x :: y :: rest').zip ((y :: rest').map f) =
            (x, f y) :: ((y :: rest').zip ((rest').map f)) := by
          simp [List.zip_cons_cons]
        rw [hzip, List.foldl_cons]
        have hrec := ih (jmSet m0 x.layerId (f y)) (List.nodup_cons.mp hnd).2 j a b ha' hb'
        simpa using hrec

theorem layerId_ne_of_index_ne (ds : List InteractionElement)
    (hnd : (ds.map (fun d => d.layerId)).Nodup) (i j : Nat) (hij : ¬ i = j)
    (a b : InteractionElement) (ha : ds[i]? = some a) (hb : ds[j]? = some b) :
    ¬ a.layerId = b.layerId := by
  intro he
  have hma : (ds.map (fun d => d.layerId))[i]? = some a.layerId := by
    rw [List.getElem?_map, ha]; rfl
  have hmb : (ds.map (fun d => d.layerId))[j]? = some b.layerId := by
    rw [List.getElem?_map, hb]; rfl
  have hlen : i < (ds.map (fun d => d.layerId)).length := by
    rw [List.length_map]
    exact (List.getElem?_eq_some.mp ha).1
  exact hij (List.getElem?_inj hlen hnd (by rw [hma, hmb, he]))

theorem executeAction_input_digit (pl : Option (List LayerInfo)) (st : IState)
    (elem : InteractionElement) (v : String)
    (ha : elem.action = some "input_digit") (hv : elem.value = some v) :
    executeAction pl st elem = execInputDigit st elem := by
  simp [executeAction, ha, hv]

/-- C3: the `input_digit` shift-register semantics. Single resolved display
with two-character text and sentinel `'-'`: `"--" + d → "-d"`,
`"-X" + d → "Xd"`, full (left char non-empty) → unchanged. Multiple resolved
displays (with distinct layer ids): a no-op when all are filled; otherwise
all current values are read before any write, each display except the last
receives the old value of its right neighbour and the last receives the
digit. -/
theorem input_digit_correct (pl : Option (List LayerInfo)) (st : IState)
    (elem : InteractionElement) (cfg : InteractionConfig) (v : String)
    (hc : st.config = some cfg)
    (ha : elem.action = some "input_digit") (hv : elem.value = some v) :
    (∀ d : InteractionElement, resolveDisplays cfg elem.target = [d] →
      ∀ cur : String, jsOr (jmGet? st.dynamicTexts d.layerId) "--" = cur →
        cur.length = 2 →
        ((charAt cur 0 = "-" → charAt cur 1 = "-" →
          jmGet? (executeAction pl st elem).1.dynamicTexts d.layerId = some ("-" ++ v)) ∧
         (charAt cur 0 = "-" → ¬ charAt cur 1 = "-" →
          jmGet? (executeAction pl st elem).1.dynamicTexts d.layerId =
            some (charAt cur 1 ++ v)) ∧
         (¬ charAt cur 0 = "-" →
          jmGet? (executeAction pl st elem).1.dynamicTexts d.layerId = some cur))) ∧
    (∀ ds : List InteractionElement, resolveDisplays cfg elem.target = ds →
      2 ≤ ds.length → (ds.map (fun d => d.layerId)).Nodup →
      ((ds.all (fun d => !(jsOr (jmGet? st.dynamicTexts d.layerId) "-" == "-")) = true →
        executeAction pl st elem = (st, [])) ∧
       (ds.all (fun d => !(jsOr (jmGet? st.dynamicTexts d.layerId) "-" == "-")) = false →
        (∀ (i : Nat) (a b : InteractionElement), ds[i]? = some a → ds[i + 1]? = some b →
          jmGet? (executeAction pl st elem).1.dynamicTexts a.layerId =
            some (jsOr (jmGet? st.dynamicTexts b.layerId) "-")) ∧
        (∀ dl : InteractionElement, ds.getLast? = some dl →
          jmGet? (executeAction pl st elem).1.dynamicTexts dl.layerId = some v)))) := by
  rw [executeAction_input_digit pl st elem v ha hv]
  constructor
  · -- single display
    intro d hres cur hcur hlen
    have hbody : execInputDigit st elem =
        (setDynamicTextFn st d.layerId (if charAt cur 0 == "-" && charAt cur 1 == "-" then "-" ++ v else if charAt cur 0 == "-" && !(charAt cur 1 == "-") then charAt cur 1 ++ v else cur),
          [Effect.setText d.layerId (if charAt cur 0 == "-" && charAt cur 1 == "-" then "-" ++ v else if charAt cur 0 == "-" && !(charAt cur 1 == "-") then charAt cur 1 ++ v else cur), Effect.recomposite]) := by
      simp only [execInputDigit, hc, hres, hv, hcur, List.isEmpty_cons]
      rfl
    rw [hbody]
    refine ⟨?_, ?_, ?_⟩
    · intro h1 h2
      simp only [setDynamicTextFn, h1, h2]
      simpa using jmGet?_jmSet_self st.dynamicTexts d.layerId ("-" ++ v)
    · intro h1 h2
      have h2' : (charAt cur 1 == "-") = false := beq_eq_false_iff_ne.mpr h2
      simp only [setDynamicTextFn, h1, h2']
      simpa using jmGet?_jmSet_self st.dynamicTexts d.layerId (charAt cur 1 ++ v)
    · intro h1
      have h1' : (charAt cur 0 == "-") = false := beq_eq_false_iff_ne.mpr h1
      simp only [setDynamicTextFn, h1']
      simpa using jmGet?_jmSet_self st.dynamicTexts d.layerId cur
  · -- multiple displays
    intro ds hres h2 hnd
    match ds, h2 with
    | d0 :: d1 :: tl, _ =>
    constructor
    · intro hall
      simp only [execInputDigit, hc, hres, List.isEmpty_cons, hall]
      rfl
    · intro hall
      obtain ⟨dlast, hdlast⟩ : ∃ dl, (d0 :: d1 :: tl).getLast? = some dl := by
        cases hl : (d0 :: d1 :: tl).getLast? with
        | none => simp [List.getLast?_eq_getElem?] at hl
        | some dl => exact ⟨dl, rfl⟩
      have hdyn : (execInputDigit st elem).1.dynamicTexts =
          jmSet
            (((d0 :: d1 :: tl).zip
                (((d0 :: d1 :: tl).map
                    (fun d => jsOr (jmGet? st.dynamicTexts d.layerId) "-")).drop 1)).foldl
              (fun m p => jmSet m p.1.layerId p.2) st.dynamicTexts)
            dlast.layerId v := by
        simp only [execInputDigit, hc, hres, hv, List.isEmpty_cons, hall, hdlast]
        rfl
      constructor
      · intro i a b hia hib
        have hlast_idx : (d0 :: d1 :: tl)[(d0 :: d1 :: tl).length - 1]? = some dlast := by
          rw [← List.getLast?_eq_getElem?]; exact hdlast
        have hi_lt : i + 1 < (d0 :: d1 :: tl).length := (List.getElem?_eq_some.mp hib).1
        have hine : ¬ i = (d0 :: d1 :: tl).length - 1 := by
          simp only [List.length_cons] at hi_lt ⊢
          omega
        have hne := layerId_ne_of_index_ne (d0 :: d1 :: tl) hnd i
          ((d0 :: d1 :: tl).length - 1) hine a dlast hia hlast_idx
        rw [hdyn, jmGet?_jmSet_ne _ _ _ _ hne, ← List.map_drop]
        exact shiftFold_lookup (fun d => jsOr (jmGet? st.dynamicTexts d.layerId) "-")
          (d0 :: d1 :: tl) st.dynamicTexts hnd i a b hia hib
      · intro dl hdl
        have hdleq : dl = dlast := by
          rw [hdl] at hdlast
          exact Option.some.inj hdlast
        subst hdleq
        rw [hdyn]
        exact jmGet?_jmSet_self _ _ _

/-! Concrete instances for the digit-entry claims: one 2-character display
`disp` on layer 5, and per-digit displays `d1`/`d2` on layers 6/7. -/

def dispElem : InteractionElement := { layerId := 5, type := "display", name := some "disp", value := some "--" }

def digit1Elem : InteractionElement := { layerId := 6, type := "display", name := some "d1", value := some "-" }

def digit2Elem : InteractionElement := { layerId := 7, type := "display", name := some "d2", value := some "-" }

def digitCfg : InteractionConfig := { elements := [dispElem, digit1Elem, digit2Elem], screens := ["a"], initialScreen := "a" }

def digitSt : IState := { config := some digitCfg, currentScreen := some "a", dynamicTexts := [(5, "--"), (6, "-"), (7, "-")] }

def digitAct (v t : String) : InteractionElement := { layerId := 1, type := "input_digit", action := some "input_digit", value := some v, target := some t }

/-- C3 witness: on the seeded state, `input_digit(1, "disp")` turns `"--"`
into `"-1"`; `input_digit(1, "d1,d2")` leaves `d1 = "-"` (old value of its
right neighbour) and sets `d2 = "1"`. -/
theorem input_digit_correct_witness :
    jmGet? (executeAction none digitSt (digitAct "1" "disp")).1.dynamicTexts 5 =
      some "-1" ∧
    jmGet? (executeAction none digitSt (digitAct "1" "d1,d2")).1.dynamicTexts 6 =
      some "-" ∧
    jmGet? (executeAction none digitSt (digitAct "1" "d1,d2")).1.dynamicTexts 7 =
      some "1" := by
  have hsingle := input_digit_correct none digitSt (digitAct "1" "disp") digitCfg "1"
    rfl rfl rfl
  have hmulti := input_digit_correct none digitSt (digitAct "1" "d1,d2") digitCfg "1"
    rfl rfl rfl
  refine ⟨?_, ?_, ?_⟩
  · exact ((hsingle.1 dispElem rfl "--" rfl rfl).1 rfl rfl)
  · exact ((hmulti.2 [digit1Elem, digit2Elem] rfl (by decide) (by decide)).2 rfl).1
      0 digit1Elem digit2Elem rfl rfl
  · exact ((hmulti.2 [digit1Elem, digit2Elem] rfl (by decide) (by decide)).2 rfl).2
      digit2Elem rfl

/-! ## The setConfig / clear_input default-text asymmetry -/

theorem filter_unique_cond (L : List InteractionElement) (e : InteractionElement)
    (cond : InteractionElement → Bool)
    (hu : L.filter (fun x => x.layerId == e.layerId) = [e]) (hce : cond e = true) :
    L.filter (fun x => cond x && x.layerId == e.layerId) = [e] := by
  rw [← List.filter_filter, hu, List.filter_cons, if_pos hce]
  rfl

theorem executeAction_clear_input (pl : Option (List LayerInfo)) (st : IState)
    (elem : InteractionElement) (ha : elem.action = some "clear_input") :
    executeAction pl st elem = execClearInput st elem := by
  simp [executeAction, ha]

/-- C9: a `display`/`dynamic_text` element with no `value` field is seeded by
`setConfig` with the two-character `"--"` (both in `dynamicTexts` and in the
pushed initial layer text), while `clear_input` resets the same element to the
one-character `"-"`; the two defaults differ. -/
theorem display_default_asymmetry (pl : Option (List LayerInfo)) (st st' : IState)
    (cfg : InteractionConfig) (elem ce : InteractionElement)
    (hu : cfg.elements.filter (fun x => x.layerId == elem.layerId) = [elem])
    (hdisp : elem.type = "display" ∨ elem.type = "dynamic_text")
    (hval : elem.value = none)
    (hc : st'.config = some cfg)
    (hca : ce.action = some "clear_input")
    (hres : resolveDisplays cfg ce.target = [elem]) :
    jmGet? (setConfigFn pl st cfg).1.dynamicTexts elem.layerId = some "--" ∧
    Effect.setText elem.layerId "--" ∈ (setConfigFn pl st cfg).2 ∧
    jmGet? (executeAction pl st' ce).1.dynamicTexts elem.layerId = some "-" ∧
    ¬ ("--" : String) = "-" := by
  have hmem : elem ∈ cfg.elements := by
    have : elem ∈ cfg.elements.filter (fun x => x.layerId == elem.layerId) := by
      rw [hu]; simp
    exact List.mem_of_mem_filter this
  have hcond : (elem.type == "display" || elem.type == "dynamic_text") = true := by
    rcases hdisp with h | h <;> simp [h]
  refine ⟨?_, ?_, ?_, by decide⟩
  · have hseed : (setConfigFn pl st cfg).1.dynamicTexts = initialTextsOf cfg := rfl
    rw [hseed]
    unfold initialTextsOf
    rw [passFold_get_unique_writer _ _ _ elem cfg.elements []
      (filter_unique_cond cfg.elements elem _ hu hcond), hval]
    rfl
  · have heff : (setConfigFn pl st cfg).2 =
        ((cfg.elements.filter
            (fun e => e.type == "display" || e.type == "dynamic_text")).map
          (fun e => Effect.setText e.layerId (e.value.getD "--"))) ++
          (match applyScreenVisibility cfg cfg.initialScreen [] [] pl with
            | some b => [Effect.visBatch b]
            | none => []) := rfl
    rw [heff]
    apply List.mem_append_left
    apply List.mem_map.mpr
    refine ⟨elem, List.mem_filter.mpr ⟨hmem, hcond⟩, ?_⟩
    rw [hval]
    rfl
  · rw [executeAction_clear_input pl st' ce hca]
    have hclear : execClearInput st' ce =
        ({ st' with dynamicTexts := jmSet st'.dynamicTexts elem.layerId (elem.value.getD "-") },
          [Effect.setText elem.layerId (elem.value.getD "-"), Effect.recomposite]) := by
      simp only [execClearInput, hc, hres, List.isEmpty_cons]
      rfl
    rw [hclear, hval]
    simpa using jmGet?_jmSet_self st'.dynamicTexts elem.layerId "-"

/-- C9 witness: a display lacking `value` (layer 42): `setConfig` seeds and
pushes `"--"`, `clear_input` resets to `"-"`. -/
theorem display_default_asymmetry_witness :
    jmGet? (setConfigFn none initState { elements := [{ layerId := 42, type := "display", name := some "d" }], screens := ["a"], initialScreen := "a" }).1.dynamicTexts 42 = some "--" ∧
    Effect.setText 42 "--" ∈ (setConfigFn none initState { elements := [{ layerId := 42, type := "display", name := some "d" }], screens := ["a"], initialScreen := "a" }).2 ∧
    jmGet? (executeAction none { config := some { elements := [{ layerId := 42, type := "display", name := some "d" }], screens := ["a"], initialScreen := "a" }, currentScreen := some "a" } { layerId := 9, type := "clear_input", action := some "clear_input", target := some "d" }).1.dynamicTexts 42 = some "-" ∧
    ¬ ("--" : String) = "-" := by
  exact display_default_asymmetry none initState
    { config := some { elements := [{ layerId := 42, type := "display", name := some "d" }], screens := ["a"], initialScreen := "a" }, currentScreen := some "a" }
    { elements := [{ layerId := 42, type := "display", name := some "d" }], screens := ["a"], initialScreen := "a" }
    { layerId := 42, type := "display", name := some "d" }
    { layerId := 9, type := "clear_input", action := some "clear_input", target := some "d" }
    (by decide) (Or.inl rfl) rfl rfl rfl (by decide)

/-! ## Resolution misses -/

theorem executeAction_highlight_branch (pl : Option (List LayerInfo)) (st : IState)
    (elem : InteractionElement)
    (ha : elem.action = some "show_highlight" ∨ elem.action = some "toggle_highlight")
    (ht : truthyS elem.target = true) :
    executeAction pl st elem = execHighlight st elem := by
  rcases ha with h | h <;> simp [executeAction, h, ht]

theorem executeAction_show_popup (pl : Option (List LayerInfo)) (st : IState)
    (elem : InteractionElement) (ha : elem.action = some "show_popup")
    (ht : truthyS elem.target = true) :
    executeAction pl st elem = execShowPopup st elem := by
  simp [executeAction, ha, ht]

theorem executeAction_navigate_conditional (pl : Option (List LayerInfo)) (st : IState)
    (elem : InteractionElement) (ha : elem.action = some "navigate_conditional")
    (hts : elem.targets.isSome = true) :
    executeAction pl st elem = execNavigateConditional pl st elem := by
  simp [executeAction, ha, hts]

/-- C7 (corrected) theorem: actions that resolve a name against the loaded
config and miss are silent no-ops — `input_digit` and `clear_input` with no
resolvable display, `show_highlight`/`toggle_highlight` with no highlight of
the target name or one without a truthy `group`, `show_popup` with no popup
of the target name, and `navigate_conditional` with no mapping for the
current screen all return the state unchanged and emit no render effect. -/
theorem resolution_miss_noop (pl : Option (List LayerInfo)) (st : IState)
    (cfg : InteractionConfig) (hc : st.config = some cfg) :
    (∀ elem : InteractionElement, ∀ v : String,
      elem.action = some "input_digit" → elem.value = some v →
      resolveDisplays cfg elem.target = [] →
      executeAction pl st elem = (st, [])) ∧
    (∀ elem : InteractionElement,
      (elem.action = some "show_highlight" ∨ elem.action = some "toggle_highlight") →
      truthyS elem.target = true →
      cfg.elements.find? (fun e => e.type == "highlight" && e.name == elem.target) = none →
      executeAction pl st elem = (st, [])) ∧
    (∀ elem te : InteractionElement,
      (elem.action = some "show_highlight" ∨ elem.action = some "toggle_highlight") →
      truthyS elem.target = true →
      cfg.elements.find? (fun e => e.type == "highlight" && e.name == elem.target) = some te →
      (te.group = none ∨ te.group = some "") →
      executeAction pl st elem = (st, [])) ∧
    (∀ elem : InteractionElement,
      elem.action = some "show_popup" → truthyS elem.target = true →
      cfg.elements.find? (fun e => e.type == "popup" && e.name == elem.target) = none →
      executeAction pl st elem = (st, [])) ∧
    (∀ elem : InteractionElement,
      elem.action = some "clear_input" →
      resolveDisplays cfg elem.target = [] →
      executeAction pl st elem = (st, [])) ∧
    (∀ elem : InteractionElement, ∀ ts : List (String × String), ∀ cur : String,
      elem.action = some "navigate_conditional" → elem.targets = some ts →
      st.currentScreen = some cur → ¬ cur = "" → jmGet? ts cur = none →
      executeAction pl st elem = (st, [])) := by
  refine ⟨?_, ?_, ?_, ?_, ?_, ?_⟩
  · intro elem v ha hv hres
    rw [executeAction_input_digit pl st elem v ha hv]
    simp [execInputDigit, hc, hres]
  · intro elem ha ht hfind
    rw [executeAction_highlight_branch pl st elem ha ht]
    simp [execHighlight, hc, hfind]
  · intro elem te ha ht hfind hg
    rw [executeAction_highlight_branch pl st elem ha ht]
    rcases hg with h | h <;> simp [execHighlight, hc, hfind, h]
  · intro elem ha ht hfind
    rw [executeAction_show_popup pl st elem ha ht]
    simp [execShowPopup, hc, hfind]
  · intro elem ha hres
    rw [executeAction_clear_input pl st elem ha]
    simp [execClearInput, hc, hres]
  · intro elem ts cur ha hts hcur hne hget
    rw [executeAction_navigate_conditional pl st elem ha (by simp [hts])]
    simp [execNavigateConditional, hcur, hne, hts, hget]

/-- C7 counterexample: a dispatched `navigate` whose target `"ghost"` names
no element of the config is not a no-op — it sets `currentScreen` to the
unknown name and issues a render batch. -/
theorem resolution_miss_cex :
    (executeAction (some fullLayers) navSt { layerId := 1, type := "button", action := some "navigate", target := some "ghost" }).1.currentScreen = some "ghost" ∧
    navSt.currentScreen = some "a" ∧
    ¬ (executeAction (some fullLayers) navSt { layerId := 1, type := "button", action := some "navigate", target := some "ghost" }).2 = [] ∧
    (∀ e ∈ navCfg.elements, ¬ e.name = some "ghost") ∧
    ¬ "ghost" ∈ navCfg.screens := by
  refine ⟨by decide, rfl, by decide, by decide, by decide⟩

/-- C7 witness: an `input_digit` whose target resolves to no display is a
silent no-op on a concrete state. -/
theorem resolution_miss_noop_witness :
    executeAction none digitSt { layerId := 1, type := "input_digit", action := some "input_digit", value := some "1", target := some "nosuch" } = (digitSt, []) := by
  exact (resolution_miss_noop none digitSt digitCfg rfl).1
    { layerId := 1, type := "input_digit", action := some "input_digit", value := some "1", target := some "nosuch" }
    "1" rfl rfl (by decide)

/-! ## Reachable engine states.
The event sources of the runtime: loading a config, user-driven navigation
and action dispatch, slider/text updates, a pending screen timer firing
(possible only while its timeout handle is still tracked — `clearTimeout` on
cancellation discards the handle), and `clear`. -/

inductive Reachable (pl : Option (List LayerInfo)) : IState → Prop where
  | init : Reachable pl initState
  | setCfg (st : IState) (cfg : InteractionConfig) : Reachable pl st →
      Reachable pl (setConfigFn pl st cfg).1
  | nav (st : IState) (s : String) : Reachable pl st →
      Reachable pl (navigateToScreen pl st s).1
  | act (st : IState) (e : InteractionElement) : Reachable pl st →
      Reachable pl (executeAction pl st e).1
  | slider (st : IState) (k : Int) (v : Rat) : Reachable pl st →
      Reachable pl (setSliderValueFn st k v).1
  | dyntext (st : IState) (k : Int) (t : String) : Reachable pl st →
      Reachable pl (setDynamicTextFn st k t)
  | fire (st : IState) (t : ScheduledTimer) : Reachable pl st →
      t ∈ st.screenTimerIds → Reachable pl (fireTimer pl st t).1
  | clearSt (st : IState) : Reachable pl st → Reachable pl (clearFn st).1

/-- The screen-timer invariant: every pending screen timer's `triggerOn`
contains the current screen — so a timer that can still fire always belongs
to the screen the engine is on, and no timer survives a navigation away from
its triggering screen. -/
def timerInvB (st : IState) : Bool :=
  st.screenTimerIds.all (fun t =>
    match st.currentScreen, t.elem.triggerOn with
    | some s, some trig => trig.contains s
    | _, _ => false)

theorem mem_startScreenTimers_triggerOn (cfg : InteractionConfig) (s : String)
    (t : ScheduledTimer) (ht : t ∈ startScreenTimers cfg s) :
    ∃ trig, t.elem.triggerOn = some trig ∧ trig.contains s = true := by
  obtain ⟨e, _, hmk⟩ := List.mem_filterMap.mp ht
  cases htr : e.triggerOn with
  | none => rw [htr] at hmk; cases hmk
  | some trig =>
    rw [htr] at hmk
    by_cases hct : trig.contains s = true
    · simp only [hct, if_true] at hmk
      cases hmk
      exact ⟨trig, htr, hct⟩
    · simp only [hct, Bool.false_eq_true, if_false] at hmk
      cases hmk

theorem timerInvB_of_fresh (st : IState) (cfg : InteractionConfig) (s : String)
    (hcur : st.currentScreen = some s)
    (hids : st.screenTimerIds = startScreenTimers cfg s) :
    timerInvB st = true := by
  unfold timerInvB
  rw [List.all_eq_true]
  intro t ht
  rw [hids] at ht
  obtain ⟨trig, htr, hct⟩ := mem_startScreenTimers_triggerOn cfg s t ht
  rw [hcur, htr]
  exact hct

theorem timerInvB_congr (st st' : IState)
    (hcur : st'.currentScreen = st.currentScreen)
    (hids : st'.screenTimerIds = st.screenTimerIds) :
    timerInvB st' = timerInvB st := by
  unfold timerInvB
  rw [hcur, hids]

theorem timerInv_navigate (pl : Option (List LayerInfo)) (st : IState) (s : String)
    (h : timerInvB st = true) : timerInvB (navigateToScreen pl st s).1 = true := by
  cases hcf : st.config with
  | none =>
    simp only [navigateToScreen, hcf]
    exact h
  | some cfg =>
    simp only [navigateToScreen, hcf]
    cases happ : applyScreenVisibility cfg s [] st.selectedHighlights pl with
    | none =>
      simp only [happ]
      exact timerInvB_of_fresh _ cfg s rfl rfl
    | some b =>
      simp only [happ]
      exact timerInvB_of_fresh _ cfg s rfl rfl

theorem execInputDigit_frame (st : IState) (e : InteractionElement) :
    (execInputDigit st e).1.currentScreen = st.currentScreen ∧
    (execInputDigit st e).1.screenTimerIds = st.screenTimerIds ∧
    (execInputDigit st e).1.selectedHighlights = st.selectedHighlights := by
  unfold execInputDigit
  repeat' (first | split | dsimp only)
  all_goals exact ⟨rfl, rfl, rfl⟩

theorem execHighlight_frame (st : IState) (e : InteractionElement) :
    (execHighlight st e).1.currentScreen = st.currentScreen ∧
    (execHighlight st e).1.screenTimerIds = st.screenTimerIds := by
  unfold execHighlight
  repeat' (first | split | dsimp only)
  all_goals exact ⟨rfl, rfl⟩

theorem execShowPopup_frame (st : IState) (e : InteractionElement) :
    (execShowPopup st e).1.currentScreen = st.currentScreen ∧
    (execShowPopup st e).1.screenTimerIds = st.screenTimerIds ∧
    (execShowPopup st e).1.selectedHighlights = st.selectedHighlights := by
  unfold execShowPopup
  repeat' (first | split | dsimp only)
  all_goals exact ⟨rfl, rfl, rfl⟩

theorem execClearInput_frame (st : IState) (e : InteractionElement) :
    (execClearInput st e).1.currentScreen = st.currentScreen ∧
    (execClearInput st e).1.screenTimerIds = st.screenTimerIds ∧
    (execClearInput st e).1.selectedHighlights = st.selectedHighlights := by
  unfold execClearInput
  repeat' (first | split | dsimp only)
  all_goals exact ⟨rfl, rfl, rfl⟩

theorem timerInv_execHidePopup (pl : Option (List LayerInfo)) (st : IState)
    (e : InteractionElement) (h : timerInvB st = true) :
    timerInvB (execHidePopup pl st e).1 = true := by
  unfold execHidePopup
  by_cases ht : truthyS e.target = true
  · rw [if_pos ht]
    exact timerInv_navigate pl _ _ ((timerInvB_congr _ st rfl rfl).trans h)
  · rw [if_neg ht]
    repeat' (first | split | dsimp only)
    all_goals exact (timerInvB_congr _ st rfl rfl).trans h

theorem timerInv_execNavigateConditional (pl : Option (List LayerInfo)) (st : IState)
    (e : InteractionElement) (h : timerInvB st = true) :
    timerInvB (execNavigateConditional pl st e).1 = true := by
  unfold execNavigateConditional
  repeat' (first | split | dsimp only)
  all_goals first
    | exact h
    | exact timerInv_navigate pl st _ h

theorem timerInv_executeAction (pl : Option (List LayerInfo)) (st : IState)
    (e : InteractionElement) (h : timerInvB st = true) :
    timerInvB (executeAction pl st e).1 = true := by
  unfold executeAction
  repeat' (first | split | dsimp only)
  all_goals first
    | exact timerInv_navigate pl st _ h
    | exact timerInv_execNavigateConditional pl st e h
    | exact ((timerInvB_congr st _ (execInputDigit_frame st e).1
        (execInputDigit_frame st e).2.1).trans h)
    | exact ((timerInvB_congr st _ (execHighlight_frame st e).1
        (execHighlight_frame st e).2).trans h)
    | exact ((timerInvB_congr st _ (execShowPopup_frame st e).1
        (execShowPopup_frame st e).2.1).trans h)
    | exact timerInv_execHidePopup pl st e h
    | exact ((timerInvB_congr st _ (execClearInput_frame st e).1
        (execClearInput_frame st e).2.1).trans h)
    | exact h

theorem timerInv_fireTimer (pl : Option (List LayerInfo)) (st : IState)
    (t : ScheduledTimer) (h : timerInvB st = true) :
    timerInvB (fireTimer pl st t).1 = true := by
  have herase : timerInvB { st with screenTimerIds := st.screenTimerIds.erase t } = true := by
    unfold timerInvB at h ⊢
    rw [List.all_eq_true] at h ⊢
    intro q hq
    exact h q (st.screenTimerIds.erase_sublist t |>.mem hq)
  unfold fireTimer
  by_cases hnav : (t.elem.action == some "navigate" && truthyS t.elem.target) = true
  · rw [if_pos hnav]
    exact timerInv_navigate pl _ _ herase
  · rw [if_neg hnav]
    exact herase

/-- C6: in every reachable execution, every pending screen timer's
`triggerOn` includes the current screen. Since a timer callback can run only
while its handle is pending (`Reachable.fire` requires membership in
`screenTimerIds`, and every navigation replaces that list wholesale), no
screen timer can fire after its triggering screen has been left — including
when the leaving navigation was performed by a timer's own navigate action. -/
theorem screen_timer_never_stale (pl : Option (List LayerInfo)) (st : IState)
    (h : Reachable pl st) : timerInvB st = true := by
  induction h with
  | init => rfl
  | setCfg st cfg _ _ => exact timerInvB_of_fresh _ cfg cfg.initialScreen rfl rfl
  | nav st s _ ih => exact timerInv_navigate pl st s ih
  | act st e _ ih => exact timerInv_executeAction pl st e ih
  | slider st k v _ ih => exact (timerInvB_congr _ st rfl rfl).trans ih
  | dyntext st k t _ ih => exact (timerInvB_congr _ st rfl rfl).trans ih
  | fire st t _ _ ih => exact timerInv_fireTimer pl st t ih
  | clearSt st _ _ => rfl

/-- C6 witness: after loading a config with a timer on screen `done` and
navigating to `done`, the invariant holds on the concrete reachable state. -/
theorem screen_timer_never_stale_witness :
    timerInvB (navigateToScreen none (setConfigFn none initState timerCfgA).1 "done").1 =
      true := by
  exact screen_timer_never_stale none _
    (Reachable.nav _ "done" (Reachable.setCfg initState timerCfgA Reachable.init))

/-! ## The highlight-group invariant -/

theorem jmGet?_setFold_no_key {β : Type} (val : InteractionElement → β)
    (L : List InteractionElement) (k : Int) (h : ∀ x ∈ L, ¬ x.layerId = k) :
    ∀ m : List (Int × β),
      jmGet? (L.foldl (fun m x => jmSet m x.layerId (val x)) m) k = jmGet? m k := by
  induction L with
  | nil => intro m; rfl
  | cons x rest ih =>
    intro m
    rw [List.foldl_cons, ih (fun q hq => h q (by simp [hq]))]
    exact jmGet?_jmSet_ne _ _ _ _ (fun hk => h x (by simp) hk.symm)

theorem jmGet?_setFold_unique {β : Type} (val : InteractionElement → β)
    (L : List InteractionElement) (e : InteractionElement)
    (hu : L.filter (fun x => x.layerId == e.layerId) = [e]) :
    ∀ m : List (Int × β),
      jmGet? (L.foldl (fun m x => jmSet m x.layerId (val x)) m) e.layerId = some (val e) := by
  induction L with
  | nil => cases hu
  | cons x rest ih =>
    intro m
    rw [List.foldl_cons]
    by_cases hk : (x.layerId == e.layerId) = true
    · rw [List.filter_cons, if_pos hk] at hu
      obtain ⟨hx, hrest⟩ : x = e ∧ rest.filter (fun x => x.layerId == e.layerId) = [] :=
        ⟨(List.cons_eq_cons.mp hu).1, (List.cons_eq_cons.mp hu).2⟩
      subst hx
      have hnk : ∀ q ∈ rest, ¬ q.layerId = x.layerId := by
        intro q hq hqk
        have : q ∈ rest.filter (fun y => y.layerId == x.layerId) :=
          List.mem_filter.mpr ⟨hq, by simpa using hqk⟩
        rw [hrest] at this
        cases this
      rw [jmGet?_setFold_no_key val rest x.layerId hnk]
      exact jmGet?_jmSet_self _ _ _
    · rw [List.filter_cons, if_neg hk] at hu
      exact ih hu _

theorem filter_key_of_nodup (L : List InteractionElement)
    (hnd : (L.map (fun d => d.layerId)).Nodup) (h : InteractionElement) (hm : h ∈ L) :
    L.filter (fun x => x.layerId == h.layerId) = [h] := by
  induction L with
  | nil => cases hm
  | cons x rest ih =>
    rcases List.mem_cons.mp hm with hx | hx
    · rw [List.filter_cons, if_pos (by simp [hx]), List.cons_eq_cons]
      refine ⟨hx.symm, ?_⟩
      rw [List.filter_eq_nil_iff]
      intro q hq hqk
      exact (List.nodup_cons.mp hnd).1
        (List.mem_map.mpr ⟨q, hq, by simpa [hx] using hqk⟩)
    · have hne : ¬ (x.layerId == h.layerId) = true := by
        simp only [beq_iff_eq]
        intro he
        exact (List.nodup_cons.mp hnd).1
          (List.mem_map.mpr ⟨h, hx, he.symm⟩)
      rw [List.filter_cons, if_neg hne]
      exact ih (List.nodup_cons.mp hnd).2 hx

/-- The override batch the highlight branch emits for a group. -/
def highlightBatch (cfg : InteractionConfig) (g : String) (tgt : Option String)
    (isOff : Bool) : List (Int × Bool) :=
  (cfg.elements.filter (fun e => e.type == "highlight" && e.group == some g)).foldl
    (fun m h => jmSet m h.layerId (if isOff then false else h.name == tgt)) []

theorem execHighlight_eq (st : IState) (elem te : InteractionElement)
    (cfg : InteractionConfig) (g : String) (hc : st.config = some cfg)
    (hfind : cfg.elements.find? (fun e => e.type == "highlight" && e.name == elem.target) =
      some te)
    (hg : te.group = some g) (hgne : ¬ g = "") :
    execHighlight st elem =
      ({ st with selectedHighlights :=
          if (elem.action == some "toggle_highlight" &&
              jmGet? st.selectedHighlights g == elem.target) then
            jmDelete st.selectedHighlights g
          else jmSet st.selectedHighlights g (elem.target.getD "") },
        [Effect.visBatch (highlightBatch cfg g elem.target
          (elem.action == some "toggle_highlight" &&
            jmGet? st.selectedHighlights g == elem.target))]) := by
  simp only [execHighlight, hc, hfind, hg]
  rw [if_neg (by simpa using hgne)]
  rfl

theorem navigate_selectedHighlights (pl : Option (List LayerInfo)) (st : IState)
    (s : String) :
    (navigateToScreen pl st s).1.selectedHighlights = st.selectedHighlights := by
  cases hcf : st.config with
  | none => simp [navigateToScreen, hcf]
  | some cfg =>
    simp only [navigateToScreen, hcf]
    cases happ : applyScreenVisibility cfg s [] st.selectedHighlights pl <;>
      simp only [happ]

theorem execHidePopup_selectedHighlights (pl : Option (List LayerInfo)) (st : IState)
    (e : InteractionElement) :
    (execHidePopup pl st e).1.selectedHighlights = st.selectedHighlights := by
  unfold execHidePopup
  by_cases ht : truthyS e.target = true
  · rw [if_pos ht, navigate_selectedHighlights]
  · rw [if_neg ht]
    repeat' (first | split | dsimp only)

theorem execNavigateConditional_selectedHighlights (pl : Option (List LayerInfo))
    (st : IState) (e : InteractionElement) :
    (execNavigateConditional pl st e).1.selectedHighlights = st.selectedHighlights := by
  unfold execNavigateConditional
  repeat' (first | split | dsimp only)
  all_goals first
    | rfl
    | rw [navigate_selectedHighlights]

theorem fireTimer_selectedHighlights (pl : Option (List LayerInfo)) (st : IState)
    (t : ScheduledTimer) :
    (fireTimer pl st t).1.selectedHighlights = st.selectedHighlights := by
  unfold fireTimer
  by_cases hnav : (t.elem.action == some "navigate" && truthyS t.elem.target) = true
  · rw [if_pos hnav, navigate_selectedHighlights]
  · rw [if_neg hnav]

theorem execHighlight_selected_nodup (st : IState) (e : InteractionElement)
    (h : (jmKeys st.selectedHighlights).Nodup) :
    (jmKeys (execHighlight st e).1.selectedHighlights).Nodup := by
  unfold execHighlight
  repeat' (first | split | dsimp only)
  all_goals first
    | exact h
    | exact jmKeys_jmDelete_nodup _ _ h
    | exact jmKeys_jmSet_nodup _ _ _ h

theorem executeAction_selected_nodup (pl : Option (List LayerInfo)) (st : IState)
    (e : InteractionElement) (h : (jmKeys st.selectedHighlights).Nodup) :
    (jmKeys (executeAction pl st e).1.selectedHighlights).Nodup := by
  unfold executeAction
  repeat' (first | split | dsimp only)
  all_goals first
    | exact h
    | (rw [navigate_selectedHighlights]; exact h)
    | (rw [execNavigateConditional_selectedHighlights]; exact h)
    | (rw [(execInputDigit_frame st e).2.2]; exact h)
    | exact execHighlight_selected_nodup st e h
    | (rw [(execShowPopup_frame st e).2.2]; exact h)
    | (rw [execHidePopup_selectedHighlights]; exact h)
    | (rw [(execClearInput_frame st e).2.2]; exact h)

theorem selected_nodup_reachable (pl : Option (List LayerInfo)) (st : IState)
    (h : Reachable pl st) : (jmKeys st.selectedHighlights).Nodup := by
  induction h with
  | init => exact List.nodup_nil
  | setCfg st cfg _ _ => exact List.nodup_nil
  | nav st s _ ih => rw [navigate_selectedHighlights]; exact ih
  | act st e _ ih => exact executeAction_selected_nodup pl st e ih
  | slider st k v _ ih => exact ih
  | dyntext st k t _ ih => exact ih
  | fire st t _ _ ih => rw [fireTimer_selectedHighlights]; exact ih
  | clearSt st _ _ => exact List.nodup_nil

/-- C4: (1) in every reachable state the selected-highlight map binds each
group at most once; (2) a `show_highlight`/`toggle_highlight` dispatch on a
resolvable highlight emits one batch for the target's group in which each
member's override is true iff its name equals the target (all false when the
toggle clears), and the group's selection is set to the target, or cleared
when the same name was already selected (`isOff` is the code's
`currentSelected === target` toggle condition). -/
theorem highlight_group_invariant :
    (∀ (pl : Option (List LayerInfo)) (st : IState), Reachable pl st →
      (jmKeys st.selectedHighlights).Nodup) ∧
    (∀ (pl : Option (List LayerInfo)) (st : IState) (elem te : InteractionElement)
      (cfg : InteractionConfig) (g tgt : String),
      st.config = some cfg →
      (elem.action = some "show_highlight" ∨ elem.action = some "toggle_highlight") →
      elem.target = some tgt → ¬ tgt = "" →
      cfg.elements.find? (fun e => e.type == "highlight" && e.name == elem.target) =
        some te →
      te.group = some g → ¬ g = "" →
      ∀ isOff : Bool,
        (elem.action == some "toggle_highlight" &&
          jmGet? st.selectedHighlights g == elem.target) = isOff →
        ((executeAction pl st elem).2 =
          [Effect.visBatch (highlightBatch cfg g elem.target isOff)]) ∧
        (∀ h ∈ cfg.elements.filter (fun e => e.type == "highlight" && e.group == some g),
          ((cfg.elements.filter
              (fun e => e.type == "highlight" && e.group == some g)).map
            (fun d => d.layerId)).Nodup →
          jmGet? (highlightBatch cfg g elem.target isOff) h.layerId =
            some (if isOff then false else h.name == elem.target)) ∧
        (isOff = true →
          jmGet? (executeAction pl st elem).1.selectedHighlights g = none) ∧
        (isOff = false →
          jmGet? (executeAction pl st elem).1.selectedHighlights g = some tgt)) := by
  constructor
  · exact selected_nodup_reachable
  · intro pl st elem te cfg g tgt hc ha htgt htne hfind hg hgne isOff hisOff
    have htr : truthyS elem.target = true := by
      rw [htgt]
      simp only [truthyS, Bool.not_eq_eq_eq_not, Bool.not_true, beq_eq_false_iff_ne,
        ne_eq]
      exact htne
    rw [executeAction_highlight_branch pl st elem ha htr,
      execHighlight_eq st elem te cfg g hc hfind hg hgne, hisOff]
    refine ⟨rfl, ?_, ?_, ?_⟩
    · intro h hm hnd
      unfold highlightBatch
      exact jmGet?_setFold_unique _ _ h (filter_key_of_nodup _ hnd h hm) []
    · intro hoff
      subst hoff
      simpa using jmGet?_jmDelete_self st.selectedHighlights g
    · intro hoff
      subst hoff
      rw [htgt]
      simpa using jmGet?_jmSet_self st.selectedHighlights g tgt

/-! ## Parsing the AI response (src/src/stores/chat-store.ts).
`JSON.parse` is a host builtin; it is modelled here by an executable parser
of the standard JSON grammar (`Json`, `parseJsonText`). Two simplifications
of the host: `\uXXXX` escapes are decoded without combining surrogate pairs,
and numbers are exact rationals rather than IEEE doubles — neither affects
the inputs considered. The block-extraction regex
`/```json\s*\n([\s\S]*?)\n```/` is modelled with its backtracking semantics:
leftmost match, greedy `\s*`, lazy capture. -/

inductive Json where
  | null : Json
  | bool : Bool → Json
  /-- An exact decimal: mantissa × 10 ^ exp10 (the host's doubles are not
  modelled; only truthiness of numbers is ever consumed). -/
  | num : Int → Int → Json
  | str : String → Json
  | arr : List Json → Json
  | obj : List (String × Json) → Json

def jsonWsChar (c : Char) : Bool :=
  c = ' ' || c = '\t' || c = '\n' || c = '\r'

def hexVal? (c : Char) : Option Nat :=
  if '0' ≤ c && c ≤ '9' then some (c.toNat - 48)
  else if 'a' ≤ c && c ≤ 'f' then some (c.toNat - 87)
  else if 'A' ≤ c && c ≤ 'F' then some (c.toNat - 55)
  else none

def parseStringBody : Nat → List Char → List Char → Option (String × List Char)
  | 0, _, _ => none
  | fuel + 1, cs, acc =>
    match cs with
    | [] => none
    | c :: rest =>
      if c = '"' then some (String.mk acc.reverse, rest)
      else if c = '\\' then
        match rest with
        | [] => none
        | e :: rest2 =>
          if e = '"' then parseStringBody fuel rest2 ('"' :: acc)
          else if e = '\\' then parseStringBody fuel rest2 ('\\' :: acc)
          else if e = '/' then parseStringBody fuel rest2 ('/' :: acc)
          else if e = 'b' then parseStringBody fuel rest2 ('\x08' :: acc)
          else if e = 'f' then parseStringBody fuel rest2 ('\x0c' :: acc)
          else if e = 'n' then parseStringBody fuel rest2 ('\n' :: acc)
          else if e = 'r' then parseStringBody fuel rest2 ('\r' :: acc)
          else if e = 't' then parseStringBody fuel rest2 ('\t' :: acc)
          else if e = 'u' then
            match rest2 with
            | h1 :: h2 :: h3 :: h4 :: rest3 =>
              match hexVal? h1, hexVal? h2, hexVal? h3, hexVal? h4 with
              | some a, some b, some c2, some d =>
                parseStringBody fuel rest3
                  (Char.ofNat (a * 4096 + b * 256 + c2 * 16 + d) :: acc)
              | _, _, _, _ => none
            | _ => none
          else none
      else if c.toNat < 32 then none
      else parseStringBody fuel rest (c :: acc)

def digitVal? (c : Char) : Option Nat :=
  if '0' ≤ c && c ≤ '9' then some (c.toNat - 48) else none

def takeDigits : List Char → (List Nat × List Char)
  | [] => ([], [])
  | c :: rest =>
    match digitVal? c with
    | some d =>
      let (ds, r) := takeDigits rest
      (d :: ds, r)
    | none => ([], c :: rest)

def digitsToNat (ds : List Nat) : Nat :=
  ds.foldl (fun a d => a * 10 + d) 0

def parseFracExp (neg : Bool) (ip : Nat) (cs : List Char) : Option ((Int × Int) × List Char) :=
  let fracRes : Option ((Nat × Nat) × List Char) :=
    match cs with
    | '.' :: r =>
      match takeDigits r with
      | ([], _) => none
      | (ds, r2) => some ((ip * 10 ^ ds.length + digitsToNat ds, ds.length), r2)
    | _ => some ((ip, 0), cs)
  match fracRes with
  | none => none
  | some ((mant0, scale), cs2) =>
    let expRes : Option (Int × List Char) :=
      match cs2 with
      | e :: r =>
        if e = 'e' || e = 'E' then
          match r with
          | '+' :: r2 =>
            (match takeDigits r2 with
              | ([], _) => none
              | (ds, r3) => some ((digitsToNat ds : Int), r3))
          | '-' :: r2 =>
            (match takeDigits r2 with
              | ([], _) => none
              | (ds, r3) => some (-(digitsToNat ds : Int), r3))
          | _ =>
            (match takeDigits r with
              | ([], _) => none
              | (ds, r3) => some ((digitsToNat ds : Int), r3))
        else some (0, cs2)
      | [] => some (0, cs2)
    match expRes with
    | none => none
    | some (ex, cs3) =>
      some (((if neg then -(mant0 : Int) else (mant0 : Int)), ex - (scale : Int)), cs3)

def parseNumber (cs0 : List Char) : Option ((Int × Int) × List Char) :=
  let negCs : Bool × List Char :=
    match cs0 with
    | '-' :: r => (true, r)
    | _ => (false, cs0)
  match negCs with
  | (neg, cs1) =>
    match cs1 with
    | [] => none
    | c :: rest =>
      if c = '0' then parseFracExp neg 0 rest
      else
        match digitVal? c with
        | some _ =>
          match takeDigits cs1 with
          | (ds, r1) => parseFracExp neg (digitsToNat ds) r1
        | none => none

def dropLit : List Char → List Char → Option (List Char)
  | [], cs => some cs
  | _ :: _, [] => none
  | l :: ls, c :: cs => if c = l then dropLit ls cs else none

mutual

def parseVal : Nat → List Char → Option (Json × List Char)
  | 0, _ => none
  | fuel + 1, cs0 =>
    let cs := cs0.dropWhile jsonWsChar
    match cs with
    | [] => none
    | c :: rest =>
      if c = '{' then
        let cs1 := rest.dropWhile jsonWsChar
        match cs1 with
        | '}' :: r => some (Json.obj [], r)
        | _ => parseMembers fuel cs1 []
      else if c = '[' then
        let cs1 := rest.dropWhile jsonWsChar
        match cs1 with
        | ']' :: r => some (Json.arr [], r)
        | _ => parseItems fuel cs1 []
      else if c = '"' then
        match parseStringBody (rest.length + 1) rest [] with
        | some (s, r) => some (Json.str s, r)
        | none => none
      else if c = 't' then
        match dropLit ['t', 'r', 'u', 'e'] cs with
        | some r => some (Json.bool true, r)
        | none => none
      else if c = 'f' then
        match dropLit ['f', 'a', 'l', 's', 'e'] cs with
        | some r => some (Json.bool false, r)
        | none => none
      else if c = 'n' then
        match dropLit ['n', 'u', 'l', 'l'] cs with
        | some r => some (Json.null, r)
        | none => none
      else
        match parseNumber cs with
        | some (q, r) => some (Json.num q.1 q.2, r)
        | none => none

def parseMembers : Nat → List Char → List (String × Json) → Option (Json × List Char)
  | 0, _, _ => none
  | fuel + 1, cs, acc =>
    let cs1 := cs.dropWhile jsonWsChar
    match cs1 with
    | '"' :: rest =>
      match parseStringBody (rest.length + 1) rest [] with
      | none => none
      | some (key, r1) =>
        let r2 := r1.dropWhile jsonWsChar
        match r2 with
        | ':' :: r3 =>
          match parseVal fuel r3 with
          | none => none
          | some (v, r4) =>
            let acc2 := jmSet acc key v
            let r5 := r4.dropWhile jsonWsChar
            match r5 with
            | ',' :: r6 => parseMembers fuel r6 acc2
            | '}' :: r6 => some (Json.obj acc2, r6)
            | _ => none
        | _ => none
    | _ => none

def parseItems : Nat → List Char → List Json → Option (Json × List Char)
  | 0, _, _ => none
  | fuel + 1, cs, acc =>
    match parseVal fuel cs with
    | none => none
    | some (v, r1) =>
      let r2 := r1.dropWhile jsonWsChar
      match r2 with
      | ',' :: r3 => parseItems fuel r3 (acc ++ [v])
      | ']' :: r3 => some (Json.arr (acc ++ [v]), r3)
      | _ => none

end

/-- Model of the host `JSON.parse`: parse one value, then only whitespace may
remain. -/
def parseJsonText (s : String) : Option Json :=
  match parseVal (s.length + 1) s.data with
  | none => none
  | some (j, rest) => if (rest.dropWhile jsonWsChar).isEmpty then some j else none

/-! The extraction regex. -/

def isPre : List Char → List Char → Bool
  | [], _ => true
  | _ :: _, [] => false
  | n :: ns, c :: cs => n = c && isPre ns cs

def findSubAux (needle : List Char) : List Char → Nat → Option Nat
  | [], i => if isPre needle [] then some i else none
  | c :: rest, i =>
    if isPre needle (c :: rest) then some i else findSubAux needle rest (i + 1)

/-- Lazy capture: everything up to the first `"\n```"` terminator. -/
def tryCloseFrom (cs : List Char) : Option (List Char) :=
  match findSubAux ['\n', '`', '`', '`'] cs 0 with
  | some m => some (cs.take m)
  | none => none

def tryOpenK : List Nat → List Char → Option (List Char)
  | [], _ => none
  | k :: ks, cs =>
    match tryCloseFrom (cs.drop (k + 1)) with
    | some cap => some cap
    | none => tryOpenK ks cs

/-- The candidate `\n` positions for the greedy `\s*\n`, largest first: every
newline inside the maximal whitespace run after the literal. -/
def newlineCandidatesDesc (cs : List Char) : List Nat :=
  ((List.range (cs.takeWhile isJsSpace).length).filter
    (fun i => cs.get? i = some '\n')).reverse

def matchTicksAt (cs : List Char) : Option (List Char) :=
  tryOpenK (newlineCandidatesDesc cs) cs

def extractScan : List Char → Option String
  | [] => none
  | c :: rest =>
    if isPre ['`', '`', '`', 'j', 's', 'o', 'n'] (c :: rest) then
      match matchTicksAt ((c :: rest).drop 7) with
      | some cap => some (String.mk cap)
      | none => extractScan rest
    else extractScan rest

/-- The first fenced json block of the text, per the source regex. -/
def extractFirstJsonBlock (s : String) : Option String :=
  extractScan s.data

/-! The config checks of `parseInteractionConfig`. -/

def jsonTruthy : Json → Bool
  | .null => false
  | .bool b => b
  | .num m _ => !(m == 0)
  | .str s => !(s == "")
  | .arr _ => true
  | .obj _ => true

def jsonGetField : Json → String → Option Json
  | .obj fields, k => jmGet? fields k
  | _, _ => none

def isJsonArray : Json → Bool
  | .arr _ => true
  | _ => false

/-- `parsed.elements && Array.isArray(parsed.elements)`. -/
def elementsArrayOk (j : Json) : Bool :=
  match jsonGetField j "elements" with
  | some e => jsonTruthy e && isJsonArray e
  | none => false

/-- `parseInteractionConfig(text)`: first fenced json block, `JSON.parse`,
then only the `elements` check — the parsed object is cast and returned. -/
def parseInteractionConfig (text : String) : Option Json :=
  match extractFirstJsonBlock text with
  | none => none
  | some block =>
    match parseJsonText block with
    | none => none
    | some j => if elementsArrayOk j then some j else none

/-- `const newConfig = config || state.interactionConfig` in
`sendUserMessage`: a successful parse replaces the config, a failed one
keeps the previous one. -/
def updateConfigOnResponse (old : Option Json) (text : String) : Option Json :=
  match parseInteractionConfig text with
  | some c => some c
  | none => old

/-- C5 (corrected) theorem: parsing an AI response fails (and then the
previously active config is kept) exactly when the text has no fenced json
block, the first such block is malformed JSON, or its `elements` field is
missing, falsy or not an array; a successful parse returns the first block's
object — `screens` and `initialScreen` are never checked. -/
theorem parse_config_correct (text : String) :
    (parseInteractionConfig text = none ↔
      (extractFirstJsonBlock text = none ∨
       (∃ block, extractFirstJsonBlock text = some block ∧ parseJsonText block = none) ∨
       (∃ block j, extractFirstJsonBlock text = some block ∧
         parseJsonText block = some j ∧ elementsArrayOk j = false))) ∧
    (∀ block j, extractFirstJsonBlock text = some block → parseJsonText block = some j →
      elementsArrayOk j = true → parseInteractionConfig text = some j) ∧
    (∀ old : Option Json, parseInteractionConfig text = none →
      updateConfigOnResponse old text = old) ∧
    (∀ (old : Option Json) (c : Json), parseInteractionConfig text = some c →
      updateConfigOnResponse old text = some c) := by
  refine ⟨?_, ?_, ?_, ?_⟩
  · cases hb : extractFirstJsonBlock text with
    | none => simp [parseInteractionConfig, hb]
    | some block =>
      cases hj : parseJsonText block with
      | none => simp [parseInteractionConfig, hb, hj]
      | some j =>
        cases hok : elementsArrayOk j with
        | true => simp [parseInteractionConfig, hb, hj, hok]
        | false => simp [parseInteractionConfig, hb, hj, hok]
  · intro block j hb hj hok
    simp [parseInteractionConfig, hb, hj, hok]
  · intro old hnone
    simp [updateConfigOnResponse, hnone]
  · intro old c hsome
    simp [updateConfigOnResponse, hsome]

/-- C5 counterexample: a response whose first fenced json block is
`{"elements": []}` — with `screens` and `initialScreen` both missing — still
parses successfully and replaces the active config, where the claim demands a
parse failure with no config update. -/
theorem parse_config_cex :
    parseInteractionConfig "```json\n\x7b\"elements\": []\x7d\n```" =
      some (Json.obj [("elements", Json.arr [])]) ∧
    jsonGetField (Json.obj [("elements", Json.arr [])]) "screens" = none ∧
    jsonGetField (Json.obj [("elements", Json.arr [])]) "initialScreen" = none ∧
    ¬ updateConfigOnResponse none "```json\n\x7b\"elements\": []\x7d\n```" = none := by
  refine ⟨rfl, rfl, rfl, ?_⟩
  intro hcontra
  rw [show updateConfigOnResponse none "```json\n\x7b\"elements\": []\x7d\n```" =
    some (Json.obj [("elements", Json.arr [])]) from rfl] at hcontra
  cases hcontra

end PsdRun
